import Mathlib

/-!
# Endless-runner game core (`src/main.js`): a shallow embedding

The JavaScript simulation core of `src/main.js` is translated function by
function into Lean definitions with explicit state passing.

Modelling conventions

* JavaScript numbers are modelled as exact rationals (`ℚ`); integer-valued
  counters (`score`, `coinsCount`) as `ℤ`.  `NaN` and the infinities are
  outside the model, and so is IEEE-754 rounding, except in the spawn loop:
  whether that loop ends depends on rounding, so it is modelled a second time
  with the binary64 rounding of its timer arithmetic (`roundDouble`,
  `spawnStepDouble`, `spawnLoopDouble`).
* `Math.hypot(dx, dy) < t` is modelled by the exact real-number comparison
  `0 < t ∧ dx² + dy² < t²` (`hypotLt`), proved equivalent to the comparison of
  the real square root in `hypotLt_iff_sqrt`.
* `Math.random()` is the stream `Env.rand`, read at the cursor `State.randIdx`.
* Canvas drawing and audio (`draw`, `drawBackground`, `updateHUD`, `beep`) do
  not feed back into the simulation state and are not modelled.
* `requestAnimationFrame` / `cancelAnimationFrame` are modelled by a list of
  pending frame handles.
* `themeIndex` ranges over the valid indices of `THEMES`, so `currentTheme()`
  is always defined inside the simulation.  The value that `startGame` reads
  from storage is modelled on its own (`startGameThemeIndex`, `themeAt`), with
  `NaN` as `none`.
* The browser built-ins `String.prototype.trim` and `Number` are modelled by
  `jsTrim` and `jsNumber`; the latter covers blank strings, signed decimal
  integers and non-numeric text.
-/

namespace Runner

/-! ## Data model -/

/-- Axis-aligned box read by `collides`: the fields `x`, `y`, `w`, `h`. -/
structure Box where
  x : ℚ
  y : ℚ
  w : ℚ
  h : ℚ
  deriving DecidableEq

/-- Fields of `class Player` as set by its constructor. -/
structure Player where
  x : ℚ
  y : ℚ
  w : ℚ
  h : ℚ
  c : String
  dy : ℚ
  jumpForce : ℚ
  grounded : Bool
  animT : ℚ
  deriving DecidableEq

/-- Fields of `class Obstacle`. -/
structure Obstacle where
  x : ℚ
  y : ℚ
  w : ℚ
  h : ℚ
  c : String
  deriving DecidableEq

/-- Fields of `class Coin`. -/
structure Coin where
  x : ℚ
  y : ℚ
  r : ℚ
  c : String
  deriving DecidableEq

/-- The box of the player, as read by `collides(player, o)`. -/
def Player.box (p : Player) : Box := ⟨p.x, p.y, p.w, p.h⟩

/-- The box of an obstacle, as read by `collides(player, o)`. -/
def Obstacle.box (o : Obstacle) : Box := ⟨o.x, o.y, o.w, o.h⟩

/-- Source `new Player(x,y,w,h,c)`. -/
def Player.new (x y w h : ℚ) (c : String) : Player :=
  { x := x, y := y, w := w, h := h, c := c, dy := 0, jumpForce := 16,
    grounded := false, animT := 0 }

/-! ## Geometry -/

/-- Source `collides(a,b)`:
`a.x < b.x + b.w && a.x + a.w > b.x && a.y < b.y + b.h && a.y + a.h > b.y`. -/
def collides (a b : Box) : Bool :=
  decide (a.x < b.x + b.w) && decide (a.x + a.w > b.x) &&
    decide (a.y < b.y + b.h) && decide (a.y + a.h > b.y)

/-! ## Player -/

/-- Source `Player.jump()`: `if(this.grounded){ this.dy=-this.jumpForce; this.grounded=false; }`. -/
def Player.jump (p : Player) : Player :=
  if p.grounded then { p with dy := -p.jumpForce, grounded := false } else p

/-- Ground line used by `Player.update`: `canvas.height - this.h - 22`. -/
def Player.groundY (canvasHeight : ℕ) (p : Player) : ℚ :=
  (canvasHeight : ℚ) - p.h - 22

/-- Source `Player.update(dt)` with the global `gravity` and `canvas.height` passed in:
`dy += gravity; y += dy; animT += dt; if (y > gy) { y = gy; dy = 0; grounded = true }`. -/
def Player.update (gravity : ℚ) (canvasHeight : ℕ) (dt : ℚ) (p : Player) : Player :=
  let p1 := { p with dy := p.dy + gravity }
  let p2 := { p1 with y := p1.y + p1.dy }
  let p3 := { p2 with animT := p2.animT + dt }
  let gy := Player.groundY canvasHeight p3
  if p3.y > gy then { p3 with y := gy, dy := 0, grounded := true } else p3

/-- The value of `this.y` that `Player.update` compares with the ground line:
the position after gravity and integration, before the clamp. -/
def Player.integratedY (gravity : ℚ) (p : Player) : ℚ := p.y + (p.dy + gravity)

/-- Whether `Player.update` takes its clamping branch (`this.y > gy`). -/
def Player.clamps (gravity : ℚ) (canvasHeight : ℕ) (p : Player) : Bool :=
  decide (Player.integratedY gravity p > Player.groundY canvasHeight p)

/-! ## Session state -/

/-- Entry of the `THEMES` table. -/
structure Theme where
  name : String
  sky : String
  ground : String
  obstacle : String
  mountain : String
  deriving DecidableEq

/-- The constant table `THEMES`. -/
def THEMES : Fin 3 → Theme :=
  ![⟨"Kota", "#8ed0ff", "#27ae60", "#c0392b", "#5ba3d4"⟩,
    ⟨"Hutan", "#b8e2c8", "#2f855a", "#2b6f3a", "#7dcfa6"⟩,
    ⟨"Gurun", "#ffe4a3", "#d4a373", "#9c6644", "#f1c27d"⟩]

/-- Source `currentTheme()`: `THEMES[themeIndex]`. -/
def currentTheme (themeIndex : Fin 3) : Theme := THEMES themeIndex

/-- The keys of the `screens` table, argument of `showScreen`. -/
inductive Screen where
  | mainMenu
  | game
  | gameOver
  | leaderboard
  deriving DecidableEq

/-- What the simulation reads from outside itself: the canvas size, the
stream of `Math.random()` results and the CSS colours of `BASE_COLOR`. -/
structure Env where
  canvasWidth : ℕ
  canvasHeight : ℕ
  rand : ℕ → ℚ
  playerColor : String
  coinColor : String

/-- The mutable variables of the game closure (`let player, gravity, ...`),
together with the cursor into the random stream, the pending animation-frame
handles, and the two DOM effects of `endGame` (`finalScoreDisplay.textContent`
and the active screen). -/
structure State where
  player : Player
  gravity : ℚ
  speedPxPerSec : ℚ
  gameSpeed : ℚ
  score : ℤ
  coinsCount : ℤ
  obstacles : List Obstacle
  coins : List Coin
  raf : ℕ
  isGameOver : Bool
  lastTime : ℚ
  spawnElapsed : ℚ
  spawnInterval : ℚ
  paused : Bool
  themeIndex : Fin 3
  randIdx : ℕ
  nextHandle : ℕ
  pending : List ℕ
  finalScoreDisplay : Option ℤ
  screen : Screen
  deriving DecidableEq

/-- Source `const MIN_INTERVAL = 0.55`. -/
def MIN_INTERVAL : ℚ := 0.55

/-- Source `raf = requestAnimationFrame(gameLoop)`: a fresh handle is issued, queued
and stored in `raf`. -/
def requestAnimationFrame (s : State) : State :=
  { s with raf := s.nextHandle, pending := s.pending ++ [s.nextHandle],
           nextHandle := s.nextHandle + 1 }

/-- Source `cancelAnimationFrame(id)`: the handle is removed from the queue. -/
def cancelAnimationFrame (id : ℕ) (s : State) : State :=
  { s with pending := s.pending.filter (fun k => decide (k ≠ id)) }

/-- Source `init()`: resets the session variables; the theme, the frame queue and
the displayed screen are left as they are. -/
def init (env : Env) (s : State) : State :=
  { s with
    isGameOver := false, paused := false, lastTime := 0,
    score := 0, coinsCount := 0, gravity := 0.8, speedPxPerSec := 240,
    gameSpeed := 0, spawnElapsed := 0, spawnInterval := 1.2,
    obstacles := [], coins := [],
    player := Player.new 50 0 40 50 env.playerColor }

/-- Source `endGame()`: `isGameOver=true; cancelAnimationFrame(raf);
final=score+coinsCount*10; finalScoreDisplay.textContent=final;
showScreen('gameOver')`. -/
def endGame (s : State) : State :=
  let s1 := { s with isGameOver := true }
  let s2 := cancelAnimationFrame s1.raf s1
  let final := s2.score + s2.coinsCount * 10
  { s2 with finalScoreDisplay := some final, screen := Screen.gameOver }

/-! ## Entities -/

/-- Source `Obstacle.update()`: `this.x -= gameSpeed`. -/
def Obstacle.update (gameSpeed : ℚ) (o : Obstacle) : Obstacle :=
  { o with x := o.x - gameSpeed }

/-- Source `Coin.update()`: `this.x -= gameSpeed`. -/
def Coin.update (gameSpeed : ℚ) (c : Coin) : Coin :=
  { c with x := c.x - gameSpeed }

/-- Exact model of `Math.hypot(dx, dy) < t` over the reals. -/
def hypotLt (dx dy t : ℚ) : Bool :=
  decide (0 < t) && decide (dx * dx + dy * dy < t * t)

/-- The pickup test of `handleCoins` for a coin already moved:
`Math.hypot(px - c.x, py - c.y) < Math.max(player.w,player.h)/2 + c.r`
with `px = player.x + player.w/2`, `py = player.y + player.h/2`. -/
def pickup (p : Player) (c : Coin) : Bool :=
  let px := p.x + p.w / 2
  let py := p.y + p.h / 2
  hypotLt (px - c.x) (py - c.y) (max p.w p.h / 2 + c.r)

/-! ## Per-frame scans -/

/-- The `for(let i=obstacles.length-1;i>=0;i--)` loop of `handleObstacles`;
the first argument is `i + 1`.  Body: `o.update()`; on `collides(player,o)`
call `endGame()` and return; drop `o` with `splice(i,1)` when `o.x + o.w < 0`. -/
def handleObstaclesLoop : ℕ → State → State
  | 0, s => s
  | i + 1, s =>
    match s.obstacles[i]? with
    | none => s
    | some o =>
      let o1 := o.update s.gameSpeed
      let s1 := { s with obstacles := s.obstacles.set i o1 }
      if collides s1.player.box o1.box then endGame s1
      else if o1.x + o1.w < 0 then
        handleObstaclesLoop i { s1 with obstacles := s1.obstacles.eraseIdx i }
      else handleObstaclesLoop i s1

/-- Source `handleObstacles()`. -/
def handleObstacles (s : State) : State :=
  handleObstaclesLoop s.obstacles.length s

/-- The `for(let i=coins.length-1;i>=0;i--)` loop of `handleCoins`; the first
argument is `i + 1`.  Body: `c.update()`; when the pickup test succeeds
`coinsCount++`, `splice(i,1)` and `continue`; otherwise drop the coin with
`splice(i,1)` when `c.x + c.r < 0`. -/
def handleCoinsLoop : ℕ → State → State
  | 0, s => s
  | i + 1, s =>
    match s.coins[i]? with
    | none => s
    | some c =>
      let c1 := c.update s.gameSpeed
      let s1 := { s with coins := s.coins.set i c1 }
      if pickup s1.player c1 then
        handleCoinsLoop i
          { s1 with coinsCount := s1.coinsCount + 1, coins := s1.coins.eraseIdx i }
      else if c1.x + c1.r < 0 then
        handleCoinsLoop i { s1 with coins := s1.coins.eraseIdx i }
      else handleCoinsLoop i s1

/-- Source `handleCoins()`. -/
def handleCoins (s : State) : State :=
  handleCoinsLoop s.coins.length s

/-! ## Spawning -/

/-- Source `spawnObstacle()`: two random draws give the height and the width. -/
def spawnObstacle (env : Env) (s : State) : State :=
  let th := currentTheme s.themeIndex
  let h := env.rand s.randIdx * 50 + 40
  let w := env.rand (s.randIdx + 1) * 24 + 30
  { s with
    randIdx := s.randIdx + 2,
    obstacles := s.obstacles ++
      [⟨(env.canvasWidth : ℚ) + 16, (env.canvasHeight : ℚ) - h - 20, w, h, th.obstacle⟩] }

/-- Source `spawnCoin()`: one random draw gives the height above the canvas bottom. -/
def spawnCoin (env : Env) (s : State) : State :=
  let y := (env.canvasHeight : ℚ) - (env.rand s.randIdx * 120 + 80)
  { s with
    randIdx := s.randIdx + 1,
    coins := s.coins ++ [⟨(env.canvasWidth : ℚ) + 16, y, 14, env.coinColor⟩] }

/-- One iteration of the `while` loop of `spawnManager`:
`spawnElapsed -= spawnInterval; spawnObstacle();
if(Math.random() < 0.55) spawnCoin();
spawnInterval = Math.max(MIN_INTERVAL, spawnInterval * 0.992)`. -/
def spawnStep (env : Env) (s : State) : State :=
  let s1 := { s with spawnElapsed := s.spawnElapsed - s.spawnInterval }
  let s2 := spawnObstacle env s1
  let r := env.rand s2.randIdx
  let s3 := { s2 with randIdx := s2.randIdx + 1 }
  let s4 := if r < 0.55 then spawnCoin env s3 else s3
  { s4 with spawnInterval := max MIN_INTERVAL (s4.spawnInterval * 0.992) }

/-- The `while(spawnElapsed >= spawnInterval)` loop of `spawnManager` in exact
arithmetic.  It is total: after one iteration the interval is at least
`MIN_INTERVAL`, and from then on every iteration takes at least `MIN_INTERVAL`
off `spawnElapsed`.  The loop on doubles is `spawnLoopDouble`. -/
def spawnLoop (env : Env) (s : State) : State :=
  if s.spawnElapsed ≥ s.spawnInterval then spawnLoop env (spawnStep env s) else s
termination_by
  ((if s.spawnInterval < MIN_INTERVAL then 1 else 0 : ℕ), ⌈s.spawnElapsed / MIN_INTERVAL⌉₊)
decreasing_by
  rename_i hge
  have hE : (spawnStep env s).spawnElapsed = s.spawnElapsed - s.spawnInterval := by
    unfold spawnStep spawnObstacle spawnCoin
    dsimp only
    split_ifs <;> rfl
  have hI : (spawnStep env s).spawnInterval = max MIN_INTERVAL (s.spawnInterval * 0.992) := by
    unfold spawnStep spawnObstacle spawnCoin
    dsimp only
    split_ifs <;> rfl
  have hM : (0 : ℚ) < MIN_INTERVAL := by norm_num [MIN_INTERVAL]
  have hnot : ¬ (spawnStep env s).spawnInterval < MIN_INTERVAL := by
    rw [hI]
    exact not_lt.mpr (le_max_left _ _)
  rw [Prod.lex_def]
  dsimp only
  rw [if_neg hnot]
  by_cases hlt : s.spawnInterval < MIN_INTERVAL
  · left
    rw [if_pos hlt]
    exact Nat.zero_lt_one
  · right
    rw [if_neg hlt]
    refine ⟨rfl, ?_⟩
    rw [hE]
    have hi : MIN_INTERVAL ≤ s.spawnInterval := not_lt.mp hlt
    have h1 : (s.spawnElapsed - s.spawnInterval) / MIN_INTERVAL ≤
        s.spawnElapsed / MIN_INTERVAL - 1 := by
      rw [sub_div]
      have : 1 ≤ s.spawnInterval / MIN_INTERVAL := (one_le_div hM).mpr hi
      linarith
    have h2 : (1 : ℚ) ≤ s.spawnElapsed / MIN_INTERVAL :=
      (one_le_div hM).mpr (le_trans hi hge)
    have h3 : ⌈s.spawnElapsed / MIN_INTERVAL - 1 + 1⌉₊ =
        ⌈s.spawnElapsed / MIN_INTERVAL - 1⌉₊ + 1 :=
      Nat.ceil_add_one (sub_nonneg.mpr h2)
    rw [sub_add_cancel] at h3
    have h5 := Nat.ceil_le_ceil h1
    omega

/-- Source `spawnManager(dt)`: `spawnElapsed += dt`, then the spawn loop. -/
def spawnManager (env : Env) (dt : ℚ) (s : State) : State :=
  spawnLoop env { s with spawnElapsed := s.spawnElapsed + dt }

/-! ## Game loop -/

/-- Source `gameLoop(ts)`.  A finished session returns at once; otherwise the next
frame is requested, `dt` is clamped to `0.05` and, unless `paused`, one
simulation step is run: `player.update(dt); handleObstacles(); handleCoins();
spawnManager(dt); score += Math.floor(60 * dt); speedPxPerSec += 4 * dt;
gameSpeed = speedPxPerSec * dt`. -/
def gameLoop (env : Env) (ts : ℚ) (s : State) : State :=
  if s.isGameOver then s
  else
    let s1 := requestAnimationFrame s
    let s2 := if s1.lastTime = 0 then { s1 with lastTime := ts } else s1
    let dt := min 0.05 ((ts - s2.lastTime) / 1000)
    let s3 := { s2 with lastTime := ts }
    if s3.paused then s3
    else
      let s4 := { s3 with player := s3.player.update s3.gravity env.canvasHeight dt }
      let s5 := handleObstacles s4
      let s6 := handleCoins s5
      let s7 := spawnManager env dt s6
      let s8 := { s7 with score := s7.score + ⌊60 * dt⌋ }
      let s9 := { s8 with speedPxPerSec := s8.speedPxPerSec + 4 * dt }
      { s9 with gameSpeed := s9.speedPxPerSec * dt }

/-- The clamped frame delta computed by `gameLoop(ts)` in state `s`:
`Math.min(0.05, (ts - lastTime)/1000)` after `if(!lastTime) lastTime = ts`. -/
def frameDt (ts : ℚ) (s : State) : ℚ :=
  min 0.05 ((ts - (if s.lastTime = 0 then ts else s.lastTime)) / 1000)

/-! ## Leaderboard -/

/-- Entry of the stored leaderboard: `{name, score, date}`. -/
structure Entry where
  name : String
  score : ℤ
  date : String
  deriving DecidableEq

/-- The value `final` computed by `saveScore()`: `score + coinsCount*10`. -/
def saveScoreFinal (s : State) : ℤ := s.score + s.coinsCount * 10

/-- Source `saveScore()` on the stored leaderboard `lb`: the new entry is pushed, the
list is sorted by descending score (`Array.prototype.sort` is stable) and the
first ten entries are stored. -/
def saveScore (name date : String) (lb : List Entry) (s : State) : List Entry :=
  let final := saveScoreFinal s
  let lb1 := lb ++ [⟨name, final, date⟩]
  let lb2 := lb1.mergeSort (fun a b => decide (b.score - a.score ≤ 0))
  lb2.take 10

/-! ## Spawn loop on doubles

The termination of the `while` loop of `spawnManager` depends on the rounding
of `spawnElapsed -= spawnInterval`; here that arithmetic is rounded to binary64.
The attributes of the spawned entities are left exact. -/

/-- Rounding of a rational to the nearest integer, ties to the even one. -/
def roundHalfEven (y : ℚ) : ℤ :=
  if y - ⌊y⌋ < 1 / 2 then ⌊y⌋
  else if 1 / 2 < y - ⌊y⌋ then ⌊y⌋ + 1
  else if ⌊y⌋ % 2 = 0 then ⌊y⌋ else ⌊y⌋ + 1

/-- The IEEE-754 binary64 value of a real result: round to nearest, ties to
even, with a 53-bit significand and the subnormal spacing below `2^-1022`.
Overflow to infinity is not modelled. -/
def roundDouble (x : ℚ) : ℚ :=
  if x = 0 then 0
  else
    (roundHalfEven (x / 2 ^ (max (Int.log 2 |x|) (-1022) - 52)) : ℚ) *
      2 ^ (max (Int.log 2 |x|) (-1022) - 52)

/-- One iteration of the `while` loop of `spawnManager` with the rounding of
double arithmetic made explicit in the two statements that drive the loop:
`spawnElapsed -= spawnInterval` and
`spawnInterval = Math.max(MIN_INTERVAL, spawnInterval * 0.992)`; the literals
`0.55` and `0.992` stand for their nearest doubles. -/
def spawnStepDouble (env : Env) (s : State) : State :=
  let s1 := { s with spawnElapsed := roundDouble (s.spawnElapsed - s.spawnInterval) }
  let s2 := spawnObstacle env s1
  let r := env.rand s2.randIdx
  let s3 := { s2 with randIdx := s2.randIdx + 1 }
  let s4 := if r < roundDouble 0.55 then spawnCoin env s3 else s3
  let shrunk := roundDouble (s4.spawnInterval * roundDouble 0.992)
  { s4 with spawnInterval := max (roundDouble MIN_INTERVAL) shrunk }

/-- The `while(spawnElapsed >= spawnInterval)` loop of `spawnManager` on doubles,
run for at most `fuel` iterations; `none` when the loop has not ended by then. -/
def spawnLoopDouble (env : Env) : ℕ → State → Option State
  | 0, s => if s.spawnElapsed ≥ s.spawnInterval then none else some s
  | fuel + 1, s =>
    if s.spawnElapsed ≥ s.spawnInterval then spawnLoopDouble env fuel (spawnStepDouble env s)
    else some s

/-- Source `spawnManager(dt)` on doubles: `spawnElapsed += dt`, then the loop. -/
def spawnManagerDouble (env : Env) (fuel : ℕ) (dt : ℚ) (s : State) : Option State :=
  spawnLoopDouble env fuel { s with spawnElapsed := roundDouble (s.spawnElapsed + dt) }

/-! ## Settings read by `startGame` -/

/-- The code points removed by `String.prototype.trim`: the ECMAScript
`WhiteSpace` and `LineTerminator` characters. -/
def jsWhiteSpace (c : Char) : Bool :=
  [0x09, 0x0A, 0x0B, 0x0C, 0x0D, 0x20, 0xA0, 0x1680, 0x2000, 0x2001, 0x2002, 0x2003,
    0x2004, 0x2005, 0x2006, 0x2007, 0x2008, 0x2009, 0x200A, 0x2028, 0x2029, 0x202F,
    0x205F, 0x3000, 0xFEFF].contains c.toNat

/-- Source `String.prototype.trim()`, on the list of characters. -/
def jsTrim (cs : List Char) : List Char :=
  ((cs.dropWhile jsWhiteSpace).reverse.dropWhile jsWhiteSpace).reverse

/-- Value of a non-empty run of decimal digits. -/
def digitsValue (cs : List Char) : Option ℕ :=
  if cs ≠ [] ∧ cs.all Char.isDigit then
    some (cs.foldl (fun n c => 10 * n + (c.toNat - 48)) 0)
  else none

/-- Source `Number(str)` for a string: `0` for a blank string, the value of an
optionally signed run of decimal digits, `NaN` (`none`) for text that is not
numeric.  The other numeric forms of JavaScript (fractions, exponents, radix
prefixes, `Infinity`) are not covered by this definition. -/
def jsNumber (str : String) : Option ℚ :=
  match jsTrim str.data with
  | [] => some 0
  | '-' :: ds => (digitsValue ds).map (fun n => -(n : ℚ))
  | '+' :: ds => (digitsValue ds).map (fun n => (n : ℚ))
  | ds => (digitsValue ds).map (fun n => (n : ℚ))

/-- The name used and stored by `startGame()`:
`(playerNameInput.value || 'Pemain').trim() || 'Pemain'`. -/
def startGameName (input : String) : String :=
  let typed := if input = "" then "Pemain" else input
  let nm : String := ⟨jsTrim typed.data⟩
  if nm = "" then "Pemain" else nm

/-- The theme index set by `startGame()`:
`Number(localStorage.getItem('runnerTheme')||0)`; `none` stands for `NaN`. -/
def startGameThemeIndex (stored : Option String) : Option ℚ :=
  match stored with
  | none => some 0
  | some str => if str = "" then some 0 else jsNumber str

/-- Source `THEMES[themeIndex]` for an arbitrary number: defined only at the
indices 0, 1 and 2. -/
def themeAt (themeIndex : Option ℚ) : Option Theme :=
  match themeIndex with
  | none => none
  | some q =>
    if q = 0 then some (THEMES 0)
    else if q = 1 then some (THEMES 1)
    else if q = 2 then some (THEMES 2)
    else none

/-! ## Auxiliary definitions used to state the properties -/

/-- Test applied by `handleCoins` to a moved coin that decides whether it stays
in the list: it is neither picked up nor past the left edge (`c.x + c.r < 0`). -/
def coinKept (p : Player) (c : Coin) : Bool :=
  !pickup p c && !decide (c.x + c.r < 0)

/-- Test applied by `handleObstacles` to a moved obstacle that decides whether
it stays in the list: it is not past the left edge (`o.x + o.w < 0`). -/
def obstacleKept (o : Obstacle) : Bool :=
  !decide (o.x + o.w < 0)

/-- A sequence of `spawnManager(dt)` calls, each with its own environment. -/
def spawnRun (calls : List (Env × ℚ)) (s : State) : State :=
  calls.foldl (fun acc call => spawnManager call.1 call.2 acc) s

/-- The players after each of a sequence of `Player.update(dt)` calls. -/
def Player.trajectory (gravity : ℚ) (canvasHeight : ℕ) : List ℚ → Player → List Player
  | [], _ => []
  | dt :: dts, p =>
    Player.update gravity canvasHeight dt p ::
      Player.trajectory gravity canvasHeight dts (Player.update gravity canvasHeight dt p)

/-- Whether none of a sequence of `Player.update(dt)` calls clamps to the
ground, i.e. the player stays airborne throughout. -/
def Player.airborne (gravity : ℚ) (canvasHeight : ℕ) : List ℚ → Player → Bool
  | [], _ => true
  | dt :: dts, p =>
    !Player.clamps gravity canvasHeight p &&
      Player.airborne gravity canvasHeight dts (Player.update gravity canvasHeight dt p)

/-- A grounded player standing on the ground line of a 506-pixel-high canvas. -/
def samplePlayerGrounded : Player :=
  { x := 50, y := 434, w := 40, h := 50, c := "#2d7ff9", dy := 0, jumpForce := 16,
    grounded := true, animT := 4.48 }

/-- An airborne player, as left by the constructor call in `init`. -/
def samplePlayerAirborne : Player := Player.new 50 0 40 50 "#2d7ff9"

/-- A 900 x 506 canvas; the random draws repeat `2/5, 2/5, 2/5, 0`, so every
spawn yields an obstacle of height 60 and width 39.6 and a coin 80 above the
canvas bottom. -/
def sampleEnv : Env :=
  { canvasWidth := 900, canvasHeight := 506,
    rand := fun n => if n % 4 = 3 then 0 else 2 / 5,
    playerColor := "#2d7ff9", coinColor := "#f1c40f" }

/-- A running session just before the player runs into the first obstacle: the
state the model reaches in `sampleEnv` from `init` after 225 frames spaced
20 ms apart with no jump (timestamps 1000, 1020, ..., 5480), the fired frame
handle already taken off the queue. -/
def sampleCollisionState : State :=
  { player := samplePlayerGrounded, gravity := 0.8, speedPxPerSec := 6448 / 25,
    gameSpeed := 3224 / 625, score := 224, coinsCount := 0,
    obstacles := [⟨57294 / 625, 426, 198 / 5, 60, "#c0392b"⟩,
                  ⟨242664 / 625, 426, 198 / 5, 60, "#c0392b"⟩,
                  ⟨85691 / 125, 426, 198 / 5, 60, "#c0392b"⟩],
    coins := [⟨57294 / 625, 426, 14, "#f1c40f"⟩,
              ⟨242664 / 625, 426, 14, "#f1c40f"⟩,
              ⟨85691 / 125, 426, 14, "#f1c40f"⟩],
    raf := 226, isGameOver := false, lastTime := 5480,
    spawnElapsed := 70994 / 78125, spawnInterval := 11439744 / 9765625,
    paused := false, themeIndex := 0, randIdx := 12,
    nextHandle := 227, pending := [], finalScoreDisplay := none, screen := Screen.game }

/-- A paused copy of the sample session. -/
def samplePausedState : State := { sampleCollisionState with paused := true }

/-- A running session with one obstacle and one coin far to the right: the
state the model reaches in `sampleEnv` from `init` after 101 frames spaced
20 ms apart with no jump (timestamps 1000, 1020, ..., 3000). -/
def sampleRunningState : State :=
  { player := { samplePlayerGrounded with animT := 2 }, gravity := 0.8, speedPxPerSec := 248,
    gameSpeed := 124 / 25, score := 100, coinsCount := 0,
    obstacles := [⟨89864 / 125, 426, 198 / 5, 60, "#c0392b"⟩],
    coins := [⟨89864 / 125, 426, 14, "#f1c40f"⟩],
    raf := 102, isGameOver := false, lastTime := 3000,
    spawnElapsed := 4 / 5, spawnInterval := 744 / 625,
    paused := false, themeIndex := 0, randIdx := 4,
    nextHandle := 103, pending := [], finalScoreDisplay := none, screen := Screen.game }

/-- The state of a running frame of `gameLoop(ts)` just before `spawnManager(dt)`
is called: the next frame requested, `lastTime` recorded, the player updated,
`handleObstacles()` and `handleCoins()` done. -/
def beforeSpawn (env : Env) (ts : ℚ) (s : State) : State :=
  handleCoins (handleObstacles
    { requestAnimationFrame s with
      lastTime := ts,
      player := s.player.update s.gravity env.canvasHeight (frameDt ts s) })

/-- Session states reachable from `init()` by animation frames whose timestamps
do not go back, with jumps, pause toggles and theme changes in between. -/
inductive Reachable : State → Prop
  | init (env : Env) (s0 : State) : Reachable (init env s0)
  | frame (env : Env) (ts : ℚ) (s : State) :
      Reachable s → s.lastTime ≤ ts → Reachable (gameLoop env ts s)
  | jump (s : State) : Reachable s → Reachable { s with player := s.player.jump }
  | togglePause (s : State) : Reachable s → Reachable { s with paused := !s.paused }
  | nextTheme (s : State) : Reachable s → Reachable { s with themeIndex := s.themeIndex + 1 }

/-- A sequence of `gameLoop(ts)` frames, each with its own environment. -/
def gameRun (frames : List (Env × ℚ)) (s : State) : State :=
  frames.foldl (fun acc f => gameLoop f.1 f.2 acc) s

/-- Whether every frame of a sequence has a clamped delta in `[0, 1/60)`. -/
def shortFrames : List (Env × ℚ) → State → Bool
  | [], _ => true
  | f :: fs, s =>
    decide (0 ≤ frameDt f.2 s) && decide (frameDt f.2 s < 1 / 60) &&
      shortFrames fs (gameLoop f.1 f.2 s)

/-- A running session in which the first obstacle is about to leave the screen:
the state the model reaches in `sampleEnv` from `init` after 250 frames spaced
20 ms apart (timestamps 1000, ..., 5980), the player jumping whenever it is
grounded and the left edge of an obstacle is between 90 and 125. -/
def sampleCullState : State :=
  { player := { x := 50, y := 1674 / 5, w := 40, h := 50, c := "#2d7ff9", dy := 44 / 5,
                jumpForce := 16, grounded := false, animT := 249 / 50 },
    gravity := 0.8, speedPxPerSec := 6498 / 25, gameSpeed := 3249 / 625,
    score := 249, coinsCount := 1,
    obstacles := [⟨-23606 / 625, 426, 198 / 5, 60, "#c0392b"⟩,
                  ⟨161764 / 625, 426, 198 / 5, 60, "#c0392b"⟩,
                  ⟨69511 / 125, 426, 198 / 5, 60, "#c0392b"⟩,
                  ⟨536827 / 625, 426, 198 / 5, 60, "#c0392b"⟩],
    coins := [⟨161764 / 625, 426, 14, "#f1c40f"⟩,
              ⟨69511 / 125, 426, 14, "#f1c40f"⟩,
              ⟨536827 / 625, 426, 14, "#f1c40f"⟩],
    raf := 251, isGameOver := false, lastTime := 5980,
    spawnElapsed := 4634637 / 19531250, spawnInterval := 1418528256 / 1220703125,
    paused := false, themeIndex := 0, randIdx := 16,
    nextHandle := 252, pending := [], finalScoreDisplay := none, screen := Screen.game }

/-- The same session 107 frames later (timestamps up to 8120), when the coin
that the player missed is about to leave the screen. -/
def sampleCoinCullState : State :=
  { player := { x := 50, y := 294, w := 40, h := 50, c := "#2d7ff9", dy := 4,
                jumpForce := 16, grounded := false, animT := 178 / 25 },
    gravity := 0.8, speedPxPerSec := 6712 / 25, gameSpeed := 3356 / 625,
    score := 356, coinsCount := 2,
    obstacles := [⟨-5759 / 625, 426, 198 / 5, 60, "#c0392b"⟩,
                  ⟨183513 / 625, 426, 198 / 5, 60, "#c0392b"⟩,
                  ⟨74594 / 125, 426, 198 / 5, 60, "#c0392b"⟩,
                  ⟨562438 / 625, 426, 198 / 5, 60, "#c0392b"⟩],
    coins := [⟨-5759 / 625, 426, 14, "#f1c40f"⟩,
              ⟨183513 / 625, 426, 14, "#f1c40f"⟩,
              ⟨74594 / 125, 426, 14, "#f1c40f"⟩,
              ⟨562438 / 625, 426, 14, "#f1c40f"⟩],
    raf := 358, isGameOver := false, lastTime := 8120,
    spawnElapsed := 9532651756 / 152587890625,
    spawnInterval := 21811290464256 / 19073486328125,
    paused := false, themeIndex := 0, randIdx := 24,
    nextHandle := 359, pending := [], finalScoreDisplay := none, screen := Screen.game }

/-- The first `n` frames of a sample session, 50 ms apart from timestamp 1000. -/
def warmupFrames (n : ℕ) : List (Env × ℚ) :=
  (List.range n).map (fun k : ℕ => (sampleEnv, 1000 + 50 * (k : ℚ)))

/-- The sample session restarted with `init` and run for 24 frames: the timer
stands at 1.15, one 50 ms frame short of the first spawn. -/
def sampleBeforeSpawnState : State :=
  gameRun (warmupFrames 24) (init sampleEnv sampleCollisionState)

/-- A running session before its first spawn, with timer `e` and last timestamp `t`. -/
def Quiet (e t : ℚ) (s : State) : Prop :=
  s.isGameOver = false ∧ s.paused = false ∧ s.obstacles = [] ∧ s.coins = [] ∧
    s.spawnInterval = 1.2 ∧ s.spawnElapsed = e ∧ s.lastTime = t ∧ s.randIdx = 12 ∧
    s.themeIndex = 0

/-- The running sample session with a spawn timer of `2^60`. -/
def sampleStalledState : State :=
  { sampleRunningState with spawnElapsed := 2 ^ 60, spawnInterval := 1 }

/-- The running sample session with the spawn timer past the interval. -/
def sampleDueState : State :=
  { sampleRunningState with spawnElapsed := 5 / 4, spawnInterval := 19 / 16 }

/-! ## Theorems -/

/-- C1: `collides` is order-independent: for all boxes `a` and `b`,
`collides(a, b) = collides(b, a)`. -/
theorem collides_comm (a b : Box) : collides a b = collides b a := by
  unfold collides
  rw [Bool.eq_iff_iff]
  simp only [Bool.and_eq_true, decide_eq_true_eq, gt_iff_lt]
  tauto

/-- C2: after `Player.update(dt)`, for every player, `dt`, gravity and canvas
height, `y` is at most the ground line `canvasHeight - h - 22`; and whenever
the integrated `y` exceeded the ground line (the update clamped), the result
has `y = groundY`, `dy = 0` and `grounded = true`. -/
theorem update_grounded_clamp (gravity : ℚ) (canvasHeight : ℕ) (dt : ℚ) (p : Player) :
    (Player.update gravity canvasHeight dt p).y ≤ (canvasHeight : ℚ) - p.h - 22 ∧
    (Player.integratedY gravity p > (canvasHeight : ℚ) - p.h - 22 →
      (Player.update gravity canvasHeight dt p).y = (canvasHeight : ℚ) - p.h - 22 ∧
      (Player.update gravity canvasHeight dt p).dy = 0 ∧
      (Player.update gravity canvasHeight dt p).grounded = true) := by
  unfold Player.update Player.integratedY Player.groundY
  constructor
  · dsimp only
    split_ifs with h
    · exact le_refl _
    · exact not_lt.mp h
  · intro h
    dsimp only
    rw [if_pos h]
    exact ⟨rfl, rfl, rfl⟩

/-- Witness for C2: a grounded player on a 506-pixel canvas is clamped by the update. -/
theorem update_grounded_clamp_witness :
    Player.integratedY 0.8 samplePlayerGrounded > ((506 : ℕ) : ℚ) - samplePlayerGrounded.h - 22 ∧
    (Player.update 0.8 506 0.016 samplePlayerGrounded).y =
      ((506 : ℕ) : ℚ) - samplePlayerGrounded.h - 22 ∧
    (Player.update 0.8 506 0.016 samplePlayerGrounded).dy = 0 ∧
    (Player.update 0.8 506 0.016 samplePlayerGrounded).grounded = true :=
  have h : Player.integratedY 0.8 samplePlayerGrounded >
      ((506 : ℕ) : ℚ) - samplePlayerGrounded.h - 22 := by
    norm_num [Player.integratedY, samplePlayerGrounded, Player.new]
  ⟨h, (update_grounded_clamp 0.8 506 0.016 samplePlayerGrounded).2 h⟩

/-- C3: for a grounded player `jump()` sets `dy` to `-jumpForce` (`-16` for
every player built by the constructor) and `grounded` to `false` and changes
no other field; for an airborne player `jump()` changes nothing, so a second
`jump()` before landing is a no-op. -/
theorem jump_spec (p : Player) :
    (p.grounded = true →
      Player.jump p = { p with dy := -p.jumpForce, grounded := false }) ∧
    (p.grounded = true → p.jumpForce = 16 →
      (Player.jump p).dy = -16 ∧ (Player.jump p).grounded = false ∧
      (Player.jump p).x = p.x ∧ (Player.jump p).y = p.y ∧ (Player.jump p).w = p.w ∧
      (Player.jump p).h = p.h ∧ (Player.jump p).animT = p.animT) ∧
    (p.grounded = false → Player.jump p = p) ∧
    Player.jump (Player.jump p) = Player.jump p ∧
    (∀ x y w h c, (Player.new x y w h c).jumpForce = 16) := by
  refine ⟨?_, ?_, ?_, ?_, ?_⟩
  · intro hg
    unfold Player.jump
    rw [if_pos hg]
  · intro hg hj
    unfold Player.jump
    rw [if_pos hg]
    dsimp only
    rw [hj]
    exact ⟨rfl, rfl, rfl, rfl, rfl, rfl, rfl⟩
  · intro hg
    unfold Player.jump
    rw [hg]
    rfl
  · unfold Player.jump
    cases hg : p.grounded
    · simp [hg]
    · simp
  · intro x y w h c
    rfl

/-- Witness for C3: a grounded player jumps with `dy = -16`; an airborne one is unchanged. -/
theorem jump_spec_witness :
    (samplePlayerGrounded.grounded = true ∧ samplePlayerGrounded.jumpForce = 16 ∧
      (Player.jump samplePlayerGrounded).dy = -16 ∧
      Player.jump samplePlayerGrounded =
        { samplePlayerGrounded with dy := -samplePlayerGrounded.jumpForce, grounded := false }) ∧
    (samplePlayerAirborne.grounded = false ∧
      Player.jump samplePlayerAirborne = samplePlayerAirborne) :=
  ⟨⟨rfl, rfl, ((jump_spec samplePlayerGrounded).2.1 rfl rfl).1,
      (jump_spec samplePlayerGrounded).1 rfl⟩,
    ⟨rfl, (jump_spec samplePlayerAirborne).2.2.1 rfl⟩⟩

/-! ### Coins -/

/-- The model `hypotLt` of `Math.hypot(dx, dy) < t` agrees with the comparison
of the real Euclidean norm. -/
theorem hypotLt_iff_sqrt (dx dy t : ℚ) :
    hypotLt dx dy t = true ↔ Real.sqrt ((dx : ℝ) ^ 2 + (dy : ℝ) ^ 2) < (t : ℝ) := by
  unfold hypotLt
  rw [Bool.and_eq_true, decide_eq_true_eq, decide_eq_true_eq]
  constructor
  · rintro ⟨ht, hlt⟩
    have ht' : (0 : ℝ) < (t : ℝ) := by exact_mod_cast ht
    rw [Real.sqrt_lt' ht']
    have : ((dx * dx + dy * dy : ℚ) : ℝ) < ((t * t : ℚ) : ℝ) := by exact_mod_cast hlt
    push_cast at this
    nlinarith [this]
  · intro h
    have ht' : (0 : ℝ) < (t : ℝ) := lt_of_le_of_lt (Real.sqrt_nonneg _) h
    have ht : 0 < t := by exact_mod_cast ht'
    refine ⟨ht, ?_⟩
    rw [Real.sqrt_lt' ht'] at h
    have : ((dx * dx + dy * dy : ℚ) : ℝ) < ((t * t : ℚ) : ℝ) := by
      push_cast
      nlinarith [h]
    exact_mod_cast this

/-- The reverse scan of `handleCoins` over the first `pre.length` coins: every
coin of `pre` is moved once, the picked-up ones are counted and removed, the
off-screen ones are removed, and the others stay in order. -/
theorem handleCoinsLoop_eq (pre : List Coin) :
    ∀ (post : List Coin) (s : State), s.coins = pre ++ post →
      handleCoinsLoop pre.length s =
        { s with
          coinsCount := s.coinsCount +
            ((pre.map (Coin.update s.gameSpeed)).countP (pickup s.player) : ℕ),
          coins := (pre.map (Coin.update s.gameSpeed)).filter (coinKept s.player) ++ post } := by
  induction pre using List.reverseRecOn with
  | nil =>
    intro post s h
    obtain ⟨_⟩ := s
    simp only [List.nil_append] at h
    subst h
    simp [handleCoinsLoop]
  | append_singleton pre c ih =>
    intro post s h
    have hget : s.coins[pre.length]? = some c := by
      rw [h, List.append_assoc, List.getElem?_append_right (le_refl _)]
      simp
    have hset : s.coins.set pre.length (c.update s.gameSpeed) =
        pre ++ (c.update s.gameSpeed :: post) := by
      rw [h]; simp
    have herase : (pre ++ (c.update s.gameSpeed :: post)).eraseIdx pre.length = pre ++ post := by
      simp [List.eraseIdx_append_of_length_le]
    rw [List.length_append, List.length_singleton, handleCoinsLoop, hget]
    dsimp only
    rw [hset, herase]
    by_cases hp : pickup s.player (c.update s.gameSpeed) = true
    · rw [if_pos hp, ih post _ rfl]
      obtain ⟨_⟩ := s
      simp [coinKept, hp, add_assoc, add_comm]
    · rw [if_neg hp]
      by_cases hoff : (c.update s.gameSpeed).x + (c.update s.gameSpeed).r < 0
      · rw [if_pos hoff, ih post _ rfl]
        obtain ⟨_⟩ := s
        simp [coinKept, hp, hoff]
      · rw [if_neg hoff, ih _ _ rfl]
        obtain ⟨_⟩ := s
        simp [coinKept, hp, hoff]

/-- Closed form of `handleCoins()`. -/
theorem handleCoins_eq (s : State) :
    handleCoins s =
      { s with
        coinsCount := s.coinsCount +
          ((s.coins.map (Coin.update s.gameSpeed)).countP (pickup s.player) : ℕ),
        coins := (s.coins.map (Coin.update s.gameSpeed)).filter (coinKept s.player) } := by
  unfold handleCoins
  rw [handleCoinsLoop_eq s.coins [] s (List.append_nil _).symm, List.append_nil]

/-- C4: `handleCoins` raises `coinsCount` by exactly the number of coins whose
centre (after this frame's `Coin.update`) lies at Euclidean distance strictly
less than `max(w,h)/2 + r` from the player's centre `(x + w/2, y + h/2)`, one
per coin; none of these coins remains in the list; a coin at distance greater
than or equal to the threshold is not counted, and it stays in the list unless
it has left the screen (`x + r < 0`). -/
theorem handleCoins_pickup (s : State) :
    (∀ c : Coin, pickup s.player c = true ↔
      Real.sqrt (((s.player.x + s.player.w / 2 - c.x : ℚ) : ℝ) ^ 2 +
          ((s.player.y + s.player.h / 2 - c.y : ℚ) : ℝ) ^ 2) <
        ((max s.player.w s.player.h / 2 + c.r : ℚ) : ℝ)) ∧
    (handleCoins s).coinsCount = s.coinsCount +
      ((s.coins.map (Coin.update s.gameSpeed)).countP (pickup s.player) : ℕ) ∧
    (handleCoins s).coins =
      (s.coins.map (Coin.update s.gameSpeed)).filter
        (fun c => !pickup s.player c && !decide (c.x + c.r < 0)) ∧
    (handleCoins s).coins.all (fun c => !pickup s.player c) = true := by
  rw [handleCoins_eq]
  refine ⟨?_, rfl, rfl, ?_⟩
  · intro c
    unfold pickup
    exact hypotLt_iff_sqrt _ _ _
  · rw [List.all_eq_true]
    intro c hc
    have hk := (List.mem_filter.mp hc).2
    unfold coinKept at hk
    rw [Bool.and_eq_true] at hk
    exact hk.1

/-! ### Obstacles -/

/-- Reverse scan of `handleObstacles` when no obstacle of `pre` hits the player. -/
theorem handleObstaclesLoop_miss (pre : List Obstacle) :
    ∀ (post : List Obstacle) (s : State), s.obstacles = pre ++ post →
      (pre.map (Obstacle.update s.gameSpeed)).all
          (fun o => !collides s.player.box o.box) = true →
      handleObstaclesLoop pre.length s =
        { s with
          obstacles := (pre.map (Obstacle.update s.gameSpeed)).filter obstacleKept ++ post } := by
  induction pre using List.reverseRecOn with
  | nil =>
    intro post s h _
    obtain ⟨_⟩ := s
    simp only [List.nil_append] at h
    subst h
    simp [handleObstaclesLoop]
  | append_singleton pre o ih =>
    intro post s h hall
    have hget : s.obstacles[pre.length]? = some o := by
      rw [h, List.append_assoc, List.getElem?_append_right (le_refl _)]
      simp
    have hset : s.obstacles.set pre.length (o.update s.gameSpeed) =
        pre ++ (o.update s.gameSpeed :: post) := by
      rw [h]; simp
    have herase :
        (pre ++ (o.update s.gameSpeed :: post)).eraseIdx pre.length = pre ++ post := by
      simp [List.eraseIdx_append_of_length_le]
    rw [List.map_append, List.all_append, Bool.and_eq_true] at hall
    have hmiss : collides s.player.box (o.update s.gameSpeed).box = false := by
      simpa using hall.2
    rw [List.length_append, List.length_singleton, handleObstaclesLoop, hget]
    dsimp only
    rw [hset, herase, hmiss]
    by_cases hoff : (o.update s.gameSpeed).x + (o.update s.gameSpeed).w < 0
    · rw [if_neg Bool.false_ne_true, if_pos hoff,
        ih post { s with obstacles := pre ++ post } rfl hall.1]
      obtain ⟨_⟩ := s
      simp [obstacleKept, hoff]
    · rw [if_neg Bool.false_ne_true, if_neg hoff,
        ih _ { s with obstacles := pre ++ (o.update s.gameSpeed :: post) } rfl hall.1]
      obtain ⟨_⟩ := s
      simp [obstacleKept, hoff]

/-- Reverse scan of `handleObstacles` when some obstacle of `pre` hits the
player: the scan ends in `endGame()`, having changed only the obstacle list. -/
theorem handleObstaclesLoop_hit (pre : List Obstacle) :
    ∀ (post : List Obstacle) (s : State), s.obstacles = pre ++ post →
      (pre.map (Obstacle.update s.gameSpeed)).any
          (fun o => collides s.player.box o.box) = true →
      ∃ obs, handleObstaclesLoop pre.length s = endGame { s with obstacles := obs } := by
  induction pre using List.reverseRecOn with
  | nil =>
    intro post s _ hany
    simp at hany
  | append_singleton pre o ih =>
    intro post s h hany
    have hget : s.obstacles[pre.length]? = some o := by
      rw [h, List.append_assoc, List.getElem?_append_right (le_refl _)]
      simp
    have hset : s.obstacles.set pre.length (o.update s.gameSpeed) =
        pre ++ (o.update s.gameSpeed :: post) := by
      rw [h]; simp
    have herase :
        (pre ++ (o.update s.gameSpeed :: post)).eraseIdx pre.length = pre ++ post := by
      simp [List.eraseIdx_append_of_length_le]
    rw [List.length_append, List.length_singleton, handleObstaclesLoop, hget]
    dsimp only
    rw [hset, herase]
    by_cases hhit : collides s.player.box (o.update s.gameSpeed).box = true
    · rw [if_pos hhit]
      exact ⟨_, rfl⟩
    · rw [if_neg hhit]
      rw [List.map_append, List.any_append, Bool.or_eq_true] at hany
      have hpre : (pre.map (Obstacle.update s.gameSpeed)).any
          (fun o => collides s.player.box o.box) = true := by
        rcases hany with h1 | h2
        · exact h1
        · exfalso
          apply hhit
          simpa using h2
      by_cases hoff : (o.update s.gameSpeed).x + (o.update s.gameSpeed).w < 0
      · rw [if_pos hoff]
        obtain ⟨obs, hobs⟩ := ih post { s with obstacles := pre ++ post } rfl hpre
        exact ⟨obs, hobs⟩
      · rw [if_neg hoff]
        obtain ⟨obs, hobs⟩ := ih (o.update s.gameSpeed :: post)
          { s with obstacles := pre ++ (o.update s.gameSpeed :: post) } rfl hpre
        exact ⟨obs, hobs⟩

/-- Either `handleObstacles()` only rewrites the obstacle list, or rewrites it
and ends in `endGame()`. -/
theorem handleObstacles_cases (s : State) :
    ∃ obs, handleObstacles s = { s with obstacles := obs } ∨
      handleObstacles s = endGame { s with obstacles := obs } := by
  unfold handleObstacles
  by_cases hany : (s.obstacles.map (Obstacle.update s.gameSpeed)).any
      (fun o => collides s.player.box o.box) = true
  · obtain ⟨obs, hobs⟩ := handleObstaclesLoop_hit s.obstacles [] s (List.append_nil _).symm hany
    exact ⟨obs, Or.inr hobs⟩
  · have hall : (s.obstacles.map (Obstacle.update s.gameSpeed)).all
        (fun o => !collides s.player.box o.box) = true := by
      rw [Bool.not_eq_true] at hany
      rw [List.all_eq_true]
      intro o ho
      have := List.any_eq_false.mp hany o ho
      simpa using this
    exact ⟨_, Or.inl (handleObstaclesLoop_miss s.obstacles [] s (List.append_nil _).symm hall)⟩

/-! ### Spawning -/

/-- One loop iteration of `spawnManager` in closed form. -/
theorem spawnStep_eq (env : Env) (s : State) :
    ∃ cs, spawnStep env s =
      { s with
        spawnElapsed := s.spawnElapsed - s.spawnInterval,
        spawnInterval := max MIN_INTERVAL (s.spawnInterval * 0.992),
        randIdx := s.randIdx + 3 + cs.length,
        obstacles := s.obstacles ++
          [⟨(env.canvasWidth : ℚ) + 16,
            (env.canvasHeight : ℚ) - (env.rand s.randIdx * 50 + 40) - 20,
            env.rand (s.randIdx + 1) * 24 + 30, env.rand s.randIdx * 50 + 40,
            (currentTheme s.themeIndex).obstacle⟩],
        coins := s.coins ++ cs } ∧ cs.length ≤ 1 := by
  unfold spawnStep spawnObstacle spawnCoin
  dsimp only
  split_ifs
  · exact ⟨[_], rfl, le_refl _⟩
  · refine ⟨[], ?_, Nat.zero_le _⟩
    obtain ⟨_⟩ := s
    simp

/-- The spawn loop changes only the spawn timer, the spawn interval, the
random cursor and the two entity lists. -/
theorem spawnLoop_frame (env : Env) (s : State) :
    ∃ e i r os cs, spawnLoop env s =
      { s with spawnElapsed := e, spawnInterval := i, randIdx := r,
               obstacles := os, coins := cs } := by
  induction s using spawnLoop.induct env with
  | case1 s hge ih =>
    rw [spawnLoop, if_pos hge]
    obtain ⟨e, i, r, os, cs, h⟩ := ih
    obtain ⟨cs1, h1, _⟩ := spawnStep_eq env s
    rw [h, h1]
    exact ⟨e, i, r, os, cs, rfl⟩
  | case2 s hlt =>
    rw [spawnLoop, if_neg hlt]
    exact ⟨s.spawnElapsed, s.spawnInterval, s.randIdx, s.obstacles, s.coins, rfl⟩

/-- The interval after one loop iteration. -/
theorem spawnStep_spawnInterval (env : Env) (s : State) :
    (spawnStep env s).spawnInterval = max MIN_INTERVAL (s.spawnInterval * 0.992) := by
  obtain ⟨cs, h, _⟩ := spawnStep_eq env s
  rw [h]

/-- The spawn loop never raises an interval that is at least `MIN_INTERVAL`,
and never takes it below `MIN_INTERVAL`. -/
theorem spawnLoop_interval (env : Env) (s : State) (h : MIN_INTERVAL ≤ s.spawnInterval) :
    (spawnLoop env s).spawnInterval ≤ s.spawnInterval ∧
      MIN_INTERVAL ≤ (spawnLoop env s).spawnInterval := by
  induction s using spawnLoop.induct env with
  | case1 s hge ih =>
    rw [spawnLoop, if_pos hge]
    have hI := spawnStep_spawnInterval env s
    have h1 : MIN_INTERVAL ≤ (spawnStep env s).spawnInterval := by
      rw [hI]; exact le_max_left _ _
    have h2 : (spawnStep env s).spawnInterval ≤ s.spawnInterval := by
      rw [hI]
      apply max_le h
      have : (0 : ℚ) ≤ s.spawnInterval := le_trans (by norm_num [MIN_INTERVAL]) h
      linarith
    exact ⟨le_trans (ih h1).1 h2, (ih h1).2⟩
  | case2 s hlt =>
    rw [spawnLoop, if_neg hlt]
    exact ⟨le_refl _, h⟩

/-- A call `spawnManager(dt)` keeps an interval above `MIN_INTERVAL` there and never raises it. -/
theorem spawnManager_interval (env : Env) (dt : ℚ) (s : State)
    (h : MIN_INTERVAL ≤ s.spawnInterval) :
    (spawnManager env dt s).spawnInterval ≤ s.spawnInterval ∧
      MIN_INTERVAL ≤ (spawnManager env dt s).spawnInterval := by
  unfold spawnManager
  exact spawnLoop_interval env { s with spawnElapsed := s.spawnElapsed + dt } h

/-- Every sequence of `spawnManager` calls keeps the interval at least `MIN_INTERVAL`. -/
theorem spawnRun_interval (calls : List (Env × ℚ)) :
    ∀ s : State, MIN_INTERVAL ≤ s.spawnInterval →
      MIN_INTERVAL ≤ (spawnRun calls s).spawnInterval := by
  induction calls with
  | nil => intro s h; exact h
  | cons call calls ih =>
    intro s h
    unfold spawnRun
    rw [List.foldl_cons]
    exact ih _ (spawnManager_interval call.1 call.2 s h).2

/-- C5: starting from `init` (`spawnInterval = 1.2`), after any sequence of
`spawnManager(dt)` calls with arbitrary `dt`, a further call leaves
`spawnInterval` less than or equal to its value before the call, and the
interval is at least `0.55` (`MIN_INTERVAL`) before and after every call. -/
theorem spawnInterval_antitone_bounded (env0 : Env) (s0 : State) (calls : List (Env × ℚ))
    (env : Env) (dt : ℚ) :
    (init env0 s0).spawnInterval = 1.2 ∧
    (spawnManager env dt (spawnRun calls (init env0 s0))).spawnInterval ≤
      (spawnRun calls (init env0 s0)).spawnInterval ∧
    (0.55 : ℚ) ≤ (spawnManager env dt (spawnRun calls (init env0 s0))).spawnInterval ∧
    (0.55 : ℚ) ≤ (spawnRun calls (init env0 s0)).spawnInterval := by
  have h0 : MIN_INTERVAL ≤ (init env0 s0).spawnInterval := by
    norm_num [init, MIN_INTERVAL]
  have h1 := spawnRun_interval calls (init env0 s0) h0
  have h2 := spawnManager_interval env dt _ h1
  exact ⟨rfl, h2.1, h2.2, h1⟩

/-! ### Game loop -/

/-- A finished session: `gameLoop` returns at once. -/
theorem gameLoop_over (env : Env) (ts : ℚ) (s : State) (h : s.isGameOver = true) :
    gameLoop env ts s = s := by
  unfold gameLoop
  rw [if_pos h]

/-- A paused, unfinished session: the frame only requests the next frame and
records the timestamp. -/
theorem gameLoop_paused (env : Env) (ts : ℚ) (s : State) (hover : s.isGameOver = false)
    (hp : s.paused = true) :
    gameLoop env ts s = { requestAnimationFrame s with lastTime := ts } := by
  unfold gameLoop requestAnimationFrame
  rw [hover]
  dsimp only
  split_ifs <;> simp_all

/-- A running session: the frame in closed form. -/
theorem gameLoop_running (env : Env) (ts : ℚ) (s : State) (hover : s.isGameOver = false)
    (hp : s.paused = false) :
    gameLoop env ts s =
      let dt := frameDt ts s
      let s3 := { requestAnimationFrame s with lastTime := ts }
      let s4 := { s3 with player := s.player.update s.gravity env.canvasHeight dt }
      let s7 := spawnManager env dt (handleCoins (handleObstacles s4))
      { s7 with score := s7.score + ⌊60 * dt⌋,
                speedPxPerSec := s7.speedPxPerSec + 4 * dt,
                gameSpeed := (s7.speedPxPerSec + 4 * dt) * dt } := by
  unfold gameLoop requestAnimationFrame frameDt
  rw [hover]
  dsimp only
  split_ifs <;> simp_all

/-- Running `handleCoins()` and then `spawnManager(dt)` changes only the coin
counter, the entity lists, the spawn timer and interval and the random cursor. -/
theorem coins_spawn_frame (env : Env) (dt : ℚ) (t : State) :
    ∃ cn os cs e i r, spawnManager env dt (handleCoins t) =
      { t with coinsCount := cn, obstacles := os, coins := cs, spawnElapsed := e,
               spawnInterval := i, randIdx := r } ∧
      cn = t.coinsCount +
        ((t.coins.map (Coin.update t.gameSpeed)).countP (pickup t.player) : ℕ) := by
  unfold spawnManager
  rw [handleCoins_eq]
  obtain ⟨e, i, r, os, cs, h⟩ := spawnLoop_frame env
    { ({ t with
        coinsCount := t.coinsCount +
          ((t.coins.map (Coin.update t.gameSpeed)).countP (pickup t.player) : ℕ),
        coins := (t.coins.map (Coin.update t.gameSpeed)).filter (coinKept t.player) } : State)
      with spawnElapsed := t.spawnElapsed + dt }
  rw [h]
  exact ⟨_, os, cs, e, i, r, rfl, rfl⟩

/-- The score after a running frame: `score + Math.floor(60 * dt)`. -/
theorem gameLoop_running_score (env : Env) (ts : ℚ) (s : State)
    (hover : s.isGameOver = false) (hp : s.paused = false) :
    (gameLoop env ts s).score = s.score + ⌊60 * frameDt ts s⌋ := by
  rw [gameLoop_running env ts s hover hp]
  dsimp only
  obtain ⟨cn, os, cs, e, i, r, h, _⟩ := coins_spawn_frame env (frameDt ts s)
    (handleObstacles { ({ requestAnimationFrame s with lastTime := ts } : State) with
      player := s.player.update s.gravity env.canvasHeight (frameDt ts s) })
  rw [h]
  dsimp only
  obtain ⟨obs, h1 | h1⟩ := handleObstacles_cases
    { ({ requestAnimationFrame s with lastTime := ts } : State) with
      player := s.player.update s.gravity env.canvasHeight (frameDt ts s) }
  · rw [h1]; rfl
  · rw [h1]; rfl

/-- The clamped delta is non-negative when the timestamp does not go back. -/
theorem frameDt_nonneg (ts : ℚ) (s : State) (hts : s.lastTime ≤ ts) : 0 ≤ frameDt ts s := by
  unfold frameDt
  apply le_min (by norm_num)
  apply div_nonneg _ (by norm_num)
  split_ifs
  · simp
  · linarith

/-- C6: for every session state and every timestamp `ts` not earlier than the
previous one, `gameLoop(ts)` yields `score' ≥ score` when the session is
running (not paused, not game-over), and `score' = score` when the session is
paused or game-over. -/
theorem score_monotone (env : Env) (ts : ℚ) (s : State) (hts : s.lastTime ≤ ts) :
    (s.isGameOver = false → s.paused = false → s.score ≤ (gameLoop env ts s).score) ∧
    (s.isGameOver = true ∨ s.paused = true → (gameLoop env ts s).score = s.score) := by
  constructor
  · intro hover hp
    rw [gameLoop_running_score env ts s hover hp]
    have h0 := frameDt_nonneg ts s hts
    have : (0 : ℤ) ≤ ⌊60 * frameDt ts s⌋ := Int.floor_nonneg.mpr (by linarith)
    linarith
  · intro h
    cases hover : s.isGameOver
    · have hp : s.paused = true := by
        rcases h with h | h
        · rw [hover] at h; exact absurd h Bool.false_ne_true
        · exact h
      rw [gameLoop_paused env ts s hover hp]
      rfl
    · rw [gameLoop_over env ts s hover]

/-- Witness for C6: a running frame and a paused frame of the sample session. -/
theorem score_monotone_witness :
    (sampleCollisionState.lastTime ≤ 5500 ∧ sampleCollisionState.isGameOver = false ∧
      sampleCollisionState.paused = false ∧
      sampleCollisionState.score ≤ (gameLoop sampleEnv 5500 sampleCollisionState).score) ∧
    (samplePausedState.lastTime ≤ 5500 ∧ samplePausedState.paused = true ∧
      (gameLoop sampleEnv 5500 samplePausedState).score = samplePausedState.score) :=
  have h1 : sampleCollisionState.lastTime ≤ 5500 := by norm_num [sampleCollisionState]
  have h2 : samplePausedState.lastTime ≤ 5500 := by
    norm_num [samplePausedState, sampleCollisionState]
  ⟨⟨h1, rfl, rfl, (score_monotone sampleEnv 5500 sampleCollisionState h1).1 rfl rfl⟩,
    ⟨h2, rfl, (score_monotone sampleEnv 5500 samplePausedState h2).2 (Or.inr rfl)⟩⟩

/-- The frame in which an obstacle hits the player. -/
theorem gameLoop_collision (env : Env) (ts : ℚ) (s : State)
    (hover : s.isGameOver = false) (hp : s.paused = false)
    (hit : (s.obstacles.map (Obstacle.update s.gameSpeed)).any
      (fun o => collides (s.player.update s.gravity env.canvasHeight (frameDt ts s)).box o.box)
        = true) :
    ∃ os cs e i r, gameLoop env ts s =
      { s with
        player := s.player.update s.gravity env.canvasHeight (frameDt ts s),
        lastTime := ts,
        raf := s.nextHandle,
        nextHandle := s.nextHandle + 1,
        pending := (s.pending ++ [s.nextHandle]).filter (fun k => decide (k ≠ s.nextHandle)),
        isGameOver := true,
        finalScoreDisplay := some (s.score + s.coinsCount * 10),
        screen := Screen.gameOver,
        score := s.score + ⌊60 * frameDt ts s⌋,
        coinsCount := s.coinsCount +
          ((s.coins.map (Coin.update s.gameSpeed)).countP
            (pickup (s.player.update s.gravity env.canvasHeight (frameDt ts s))) : ℕ),
        speedPxPerSec := s.speedPxPerSec + 4 * frameDt ts s,
        gameSpeed := (s.speedPxPerSec + 4 * frameDt ts s) * frameDt ts s,
        obstacles := os, coins := cs, spawnElapsed := e, spawnInterval := i, randIdx := r } := by
  rw [gameLoop_running env ts s hover hp]
  dsimp only
  obtain ⟨obs, h1⟩ := handleObstaclesLoop_hit s.obstacles []
    { ({ requestAnimationFrame s with lastTime := ts } : State) with
      player := s.player.update s.gravity env.canvasHeight (frameDt ts s) }
    (List.append_nil _).symm hit
  unfold handleObstacles
  have hlen : ({ ({ requestAnimationFrame s with lastTime := ts } : State) with
      player := s.player.update s.gravity env.canvasHeight (frameDt ts s) } : State).obstacles.length
      = s.obstacles.length := rfl
  rw [hlen, h1]
  obtain ⟨cn, os, cs, e, i, r, h, hcn⟩ := coins_spawn_frame env (frameDt ts s)
    (endGame { ({ ({ requestAnimationFrame s with lastTime := ts } : State) with
      player := s.player.update s.gravity env.canvasHeight (frameDt ts s) } : State) with
      obstacles := obs })
  rw [h, hcn]
  exact ⟨os, cs, e, i, r, rfl⟩

/-! ### The collision frame of the sample session -/

/-- The clamped delta of the sample frame. -/
theorem sample_frameDt : frameDt 5500 sampleCollisionState = 0.02 := by
  norm_num [frameDt, sampleCollisionState]

/-- The grounded sample player stays on the ground line. -/
theorem sample_player :
    samplePlayerGrounded.update 0.8 506 0.02 = { samplePlayerGrounded with animT := 4.5 } := by
  norm_num [Player.update, samplePlayerGrounded, Player.new, Player.groundY]

/-- The moved sample obstacle overlaps the player. -/
theorem sample_hit :
    (sampleCollisionState.obstacles.map (Obstacle.update sampleCollisionState.gameSpeed)).any
      (fun o => collides (sampleCollisionState.player.update sampleCollisionState.gravity
        sampleEnv.canvasHeight (frameDt 5500 sampleCollisionState)).box o.box) = true := by
  rw [sample_frameDt]
  simp only [sampleCollisionState, sampleEnv]
  rw [sample_player]
  norm_num [Obstacle.update, collides, Player.box, Obstacle.box, samplePlayerGrounded, Player.new]

/-- The moved sample coin is within pickup range. -/
theorem sample_pickup :
    (sampleCollisionState.coins.map (Coin.update sampleCollisionState.gameSpeed)).countP
      (pickup (sampleCollisionState.player.update sampleCollisionState.gravity
        sampleEnv.canvasHeight (frameDt 5500 sampleCollisionState))) = 1 := by
  rw [sample_frameDt]
  simp only [sampleCollisionState, sampleEnv]
  rw [sample_player]
  norm_num [Coin.update, pickup, hypotLt, samplePlayerGrounded, Player.new, List.countP_cons]

/-- C8 (the code evaluated at a collision frame): in the frame in which
the obstacle hits the player, `endGame()` displays `score + coinsCount*10 = 224`
computed in the middle of the frame, while the rest of the frame still picks
up a coin and adds `Math.floor(60 * dt)`, so the recomputation made by
`saveScore()` from the state at the end of that frame gives `235`. -/
theorem final_score_mismatch :
    sampleCollisionState.isGameOver = false ∧ sampleCollisionState.paused = false ∧
    (gameLoop sampleEnv 5500 sampleCollisionState).isGameOver = true ∧
    (gameLoop sampleEnv 5500 sampleCollisionState).finalScoreDisplay = some 224 ∧
    saveScoreFinal (gameLoop sampleEnv 5500 sampleCollisionState) = 235 := by
  obtain ⟨os, cs, e, i, r, h⟩ :=
    gameLoop_collision sampleEnv 5500 sampleCollisionState rfl rfl sample_hit
  rw [h, sample_pickup, sample_frameDt]
  refine ⟨rfl, rfl, rfl, ?_, ?_⟩
  · rfl
  · unfold saveScoreFinal
    dsimp only
    norm_num [sampleCollisionState]

/-- C7: in a running frame in which some obstacle, after its move, overlaps
the updated player, `gameLoop` sets `isGameOver`, the frame it had just
requested is cancelled (no new handle is pending) and every later `gameLoop`
call leaves the state as it is; and for every state with `isGameOver = true`
and every timestamp, `gameLoop` changes nothing and schedules no frame. -/
theorem gameOver_terminal (env : Env) (ts : ℚ) (s : State) :
    (s.isGameOver = false → s.paused = false →
      (∃ o ∈ s.obstacles,
        collides (s.player.update s.gravity env.canvasHeight (frameDt ts s)).box
          (o.update s.gameSpeed).box = true) →
      (gameLoop env ts s).isGameOver = true ∧
      (gameLoop env ts s).raf = s.nextHandle ∧
      (gameLoop env ts s).pending = s.pending.filter (fun k => decide (k ≠ s.nextHandle)) ∧
      (gameLoop env ts s).raf ∉ (gameLoop env ts s).pending ∧
      ∀ ts2, gameLoop env ts2 (gameLoop env ts s) = gameLoop env ts s) ∧
    (s.isGameOver = true → gameLoop env ts s = s) := by
  constructor
  · rintro hover hp ⟨o, ho, hc⟩
    have hit : (s.obstacles.map (Obstacle.update s.gameSpeed)).any
        (fun o => collides (s.player.update s.gravity env.canvasHeight (frameDt ts s)).box o.box)
          = true := by
      rw [List.any_eq_true]
      exact ⟨o.update s.gameSpeed, List.mem_map_of_mem _ ho, hc⟩
    obtain ⟨os, cs, e, i, r, h⟩ := gameLoop_collision env ts s hover hp hit
    have hover2 : (gameLoop env ts s).isGameOver = true := by rw [h]
    have hraf : (gameLoop env ts s).raf = s.nextHandle := by rw [h]
    have hpend : (gameLoop env ts s).pending =
        s.pending.filter (fun k => decide (k ≠ s.nextHandle)) := by
      rw [h]
      simp [List.filter_append]
    refine ⟨hover2, hraf, hpend, ?_, fun ts2 => gameLoop_over env ts2 _ hover2⟩
    rw [hraf, hpend]
    intro hmem
    have := (List.mem_filter.mp hmem).2
    simp at this
  · exact gameLoop_over env ts s

/-- Witness for C7: the sample collision frame, and a frame after `endGame()`. -/
theorem gameOver_terminal_witness :
    (sampleCollisionState.isGameOver = false ∧ sampleCollisionState.paused = false ∧
      (gameLoop sampleEnv 5500 sampleCollisionState).isGameOver = true ∧
      (gameLoop sampleEnv 5500 sampleCollisionState).pending = []) ∧
    ((endGame sampleCollisionState).isGameOver = true ∧
      gameLoop sampleEnv 5520 (endGame sampleCollisionState) = endGame sampleCollisionState) :=
  have hit : ∃ o ∈ sampleCollisionState.obstacles,
      collides (sampleCollisionState.player.update sampleCollisionState.gravity
        sampleEnv.canvasHeight (frameDt 5500 sampleCollisionState)).box
        (o.update sampleCollisionState.gameSpeed).box = true := by
    refine ⟨⟨57294 / 625, 426, 198 / 5, 60, "#c0392b"⟩, List.mem_cons_self _ _, ?_⟩
    rw [sample_frameDt]
    simp only [sampleCollisionState, sampleEnv]
    rw [sample_player]
    norm_num [Obstacle.update, collides, Player.box, Obstacle.box, samplePlayerGrounded,
      Player.new]
  have h := (gameOver_terminal sampleEnv 5500 sampleCollisionState).1 rfl rfl hit
  ⟨⟨rfl, rfl, h.1, h.2.2.1⟩,
    ⟨rfl, (gameOver_terminal sampleEnv 5520 (endGame sampleCollisionState)).2 rfl⟩⟩

/-- C10: for every paused, unfinished session and every timestamp, `gameLoop`
requests the next frame and records `lastTime`, and changes nothing else: the
player, the obstacle and coin lists, `score`, `coinsCount`, `speedPxPerSec`,
`gameSpeed`, `spawnElapsed` and `spawnInterval` are unchanged. -/
theorem paused_frame (env : Env) (ts : ℚ) (s : State)
    (hp : s.paused = true) (hover : s.isGameOver = false) :
    gameLoop env ts s =
      { s with lastTime := ts, raf := s.nextHandle, pending := s.pending ++ [s.nextHandle],
               nextHandle := s.nextHandle + 1 } ∧
    (gameLoop env ts s).player = s.player ∧
    (gameLoop env ts s).obstacles = s.obstacles ∧
    (gameLoop env ts s).coins = s.coins ∧
    (gameLoop env ts s).score = s.score ∧
    (gameLoop env ts s).coinsCount = s.coinsCount ∧
    (gameLoop env ts s).speedPxPerSec = s.speedPxPerSec ∧
    (gameLoop env ts s).gameSpeed = s.gameSpeed ∧
    (gameLoop env ts s).spawnElapsed = s.spawnElapsed ∧
    (gameLoop env ts s).spawnInterval = s.spawnInterval ∧
    (gameLoop env ts s).lastTime = ts ∧
    (gameLoop env ts s).raf ∈ (gameLoop env ts s).pending := by
  rw [gameLoop_paused env ts s hover hp]
  refine ⟨rfl, rfl, rfl, rfl, rfl, rfl, rfl, rfl, rfl, rfl, rfl, ?_⟩
  simp [requestAnimationFrame]

/-- Witness for C10: one frame of the paused sample session. -/
theorem paused_frame_witness :
    samplePausedState.paused = true ∧ samplePausedState.isGameOver = false ∧
    gameLoop sampleEnv 5500 samplePausedState =
      { samplePausedState with lastTime := 5500, raf := 227, pending := [227],
                               nextHandle := 228 } :=
  ⟨rfl, rfl, (paused_frame sampleEnv 5500 samplePausedState rfl rfl).1⟩

/-- One airborne update adds `gravity` to `dy`. -/
theorem update_airborne_dy (gravity : ℚ) (canvasHeight : ℕ) (dt : ℚ) (p : Player)
    (hair : Player.clamps gravity canvasHeight p = false) :
    (Player.update gravity canvasHeight dt p).dy = p.dy + gravity := by
  unfold Player.clamps Player.integratedY Player.groundY at hair
  rw [decide_eq_false_iff_not] at hair
  unfold Player.update Player.groundY
  dsimp only
  rw [if_neg hair]

/-- Along an airborne run the successive values of `dy` increase strictly. -/
theorem trajectory_dy_chain (gravity : ℚ) (hg : 0 < gravity) (canvasHeight : ℕ)
    (dts : List ℚ) :
    ∀ p : Player, Player.airborne gravity canvasHeight dts p = true →
      List.Chain (fun a b => a < b) p.dy
        ((Player.trajectory gravity canvasHeight dts p).map Player.dy) := by
  induction dts with
  | nil => intro p _; exact List.Chain.nil
  | cons dt dts ih =>
    intro p h
    unfold Player.airborne at h
    rw [Bool.and_eq_true, Bool.not_eq_true'] at h
    unfold Player.trajectory
    rw [List.map_cons]
    refine List.Chain.cons ?_ (ih _ h.2)
    rw [update_airborne_dy gravity canvasHeight dt p h.1]
    linarith

/-- C9: with the gravity set by `init` (`0.8`), for every `dt ≤ 0.05` and every
player that `Player.update(dt)` does not clamp to the ground, `dy` after the
update is strictly greater than before; hence along any run of consecutive
airborne updates the successive values of `dy` are strictly increasing. -/
theorem gravity_accumulates (env : Env) (s0 : State) (canvasHeight : ℕ) (dt : ℚ) (p : Player)
    (_hdt : dt ≤ 0.05)
    (hair : Player.clamps (init env s0).gravity canvasHeight p = false) :
    p.dy < (Player.update (init env s0).gravity canvasHeight dt p).dy ∧
    ∀ (dts : List ℚ) (q : Player), (∀ d ∈ dts, d ≤ 0.05) →
      Player.airborne (init env s0).gravity canvasHeight dts q = true →
      List.Chain (fun a b => a < b) q.dy
        ((Player.trajectory (init env s0).gravity canvasHeight dts q).map Player.dy) := by
  have hg : (0 : ℚ) < (init env s0).gravity := by norm_num [init]
  constructor
  · rw [update_airborne_dy _ canvasHeight dt p hair]
    linarith
  · intro dts q _ hq
    exact trajectory_dy_chain _ hg canvasHeight dts q hq

/-- Witness for C9: the first update of a freshly constructed player. -/
theorem gravity_accumulates_witness :
    (0.02 : ℚ) ≤ 0.05 ∧
    Player.clamps (init sampleEnv sampleCollisionState).gravity 506 samplePlayerAirborne = false ∧
    samplePlayerAirborne.dy <
      (Player.update (init sampleEnv sampleCollisionState).gravity 506 0.02
        samplePlayerAirborne).dy :=
  have h1 : (0.02 : ℚ) ≤ 0.05 := by norm_num
  have h2 : Player.clamps (init sampleEnv sampleCollisionState).gravity 506
      samplePlayerAirborne = false := by
    norm_num [Player.clamps, Player.integratedY, Player.groundY, init, samplePlayerAirborne,
      Player.new]
  ⟨h1, h2, (gravity_accumulates sampleEnv sampleCollisionState 506 0.02 samplePlayerAirborne
    h1 h2).1⟩

/-! ### Frame equations -/

/-- The scroll speed after a running frame: `speedPxPerSec + 4 * dt`, and the
scroll distance stored for the next frame. -/
theorem gameLoop_running_speed (env : Env) (ts : ℚ) (s : State)
    (hover : s.isGameOver = false) (hp : s.paused = false) :
    (gameLoop env ts s).speedPxPerSec = s.speedPxPerSec + 4 * frameDt ts s ∧
    (gameLoop env ts s).gameSpeed = (s.speedPxPerSec + 4 * frameDt ts s) * frameDt ts s ∧
    (gameLoop env ts s).player = s.player.update s.gravity env.canvasHeight (frameDt ts s) ∧
    (gameLoop env ts s).lastTime = ts := by
  rw [gameLoop_running env ts s hover hp]
  dsimp only
  obtain ⟨cn, os, cs, e, i, r, h, _⟩ := coins_spawn_frame env (frameDt ts s)
    (handleObstacles { ({ requestAnimationFrame s with lastTime := ts } : State) with
      player := s.player.update s.gravity env.canvasHeight (frameDt ts s) })
  rw [h]
  dsimp only
  obtain ⟨obs, h1 | h1⟩ := handleObstacles_cases
    { ({ requestAnimationFrame s with lastTime := ts } : State) with
      player := s.player.update s.gravity env.canvasHeight (frameDt ts s) }
  · rw [h1]; exact ⟨rfl, rfl, rfl, rfl⟩
  · rw [h1]; exact ⟨rfl, rfl, rfl, rfl⟩

/-- The clamped delta never exceeds `0.05`. -/
theorem frameDt_le (ts : ℚ) (s : State) : frameDt ts s ≤ 0.05 := by
  unfold frameDt
  exact min_le_left _ _

/-- C11: in every running frame the delta is `Math.min(0.05, (ts - lastTime)/1000)`
(with `lastTime` first set to `ts` when it is `0`, so that the frame entered
with `lastTime = 0` has `dt = 0`); it never exceeds `0.05` whatever the gap
between timestamps; and with that `dt` the frame updates the player, sets
`score' = score + floor(60*dt)` and `speed' = speed + 4*dt`. -/
theorem frame_update_equations (env : Env) (ts : ℚ) (s : State)
    (hover : s.isGameOver = false) (hp : s.paused = false) :
    (s.lastTime ≠ 0 → frameDt ts s = min 0.05 ((ts - s.lastTime) / 1000)) ∧
    (s.lastTime = 0 → frameDt ts s = 0) ∧
    frameDt ts s ≤ 0.05 ∧
    (gameLoop env ts s).player =
      s.player.update s.gravity env.canvasHeight (frameDt ts s) ∧
    (gameLoop env ts s).score = s.score + ⌊60 * frameDt ts s⌋ ∧
    (gameLoop env ts s).speedPxPerSec = s.speedPxPerSec + 4 * frameDt ts s := by
  refine ⟨?_, ?_, frameDt_le ts s, ?_, gameLoop_running_score env ts s hover hp,
    (gameLoop_running_speed env ts s hover hp).1⟩
  · intro h
    unfold frameDt
    rw [if_neg h]
  · intro h
    unfold frameDt
    rw [if_pos h]
    norm_num
  · exact (gameLoop_running_speed env ts s hover hp).2.2.1

/-- Witness for C11: a frame of the sample session, and the first frame after `init`. -/
theorem frame_update_equations_witness :
    (sampleCollisionState.isGameOver = false ∧ sampleCollisionState.paused = false ∧
      sampleCollisionState.lastTime ≠ 0 ∧
      frameDt 5500 sampleCollisionState =
        min 0.05 ((5500 - sampleCollisionState.lastTime) / 1000) ∧
      (gameLoop sampleEnv 5500 sampleCollisionState).score =
        sampleCollisionState.score + ⌊60 * frameDt 5500 sampleCollisionState⌋) ∧
    ((init sampleEnv sampleCollisionState).isGameOver = false ∧
      (init sampleEnv sampleCollisionState).paused = false ∧
      (init sampleEnv sampleCollisionState).lastTime = 0 ∧
      frameDt 1000 (init sampleEnv sampleCollisionState) = 0) :=
  have h0 : sampleCollisionState.lastTime ≠ 0 := by norm_num [sampleCollisionState]
  have h := frame_update_equations sampleEnv 5500 sampleCollisionState rfl rfl
  have g := frame_update_equations sampleEnv 1000 (init sampleEnv sampleCollisionState) rfl rfl
  ⟨⟨rfl, rfl, h0, h.1 h0, h.2.2.2.2.1⟩, ⟨rfl, rfl, rfl, g.2.1 rfl⟩⟩

/-! ### Scroll distance -/

/-- When the timer stays below the interval, `spawnManager(dt)` only advances the timer. -/
theorem spawnManager_idle (env : Env) (dt : ℚ) (s : State)
    (h : s.spawnElapsed + dt < s.spawnInterval) :
    spawnManager env dt s = { s with spawnElapsed := s.spawnElapsed + dt } := by
  unfold spawnManager
  rw [spawnLoop, if_neg (not_le.mpr h)]

/-- A running frame in which no obstacle hits the player, in closed form. -/
theorem gameLoop_no_collision (env : Env) (ts : ℚ) (s : State)
    (hover : s.isGameOver = false) (hp : s.paused = false)
    (hall : (s.obstacles.map (Obstacle.update s.gameSpeed)).all
      (fun o => !collides (s.player.update s.gravity env.canvasHeight (frameDt ts s)).box o.box)
        = true) :
    gameLoop env ts s =
      let dt := frameDt ts s
      let p := s.player.update s.gravity env.canvasHeight dt
      let s7 := spawnManager env dt
        { requestAnimationFrame s with
          lastTime := ts, player := p,
          obstacles := (s.obstacles.map (Obstacle.update s.gameSpeed)).filter obstacleKept,
          coinsCount := s.coinsCount +
            ((s.coins.map (Coin.update s.gameSpeed)).countP (pickup p) : ℕ),
          coins := (s.coins.map (Coin.update s.gameSpeed)).filter (coinKept p) }
      { s7 with score := s7.score + ⌊60 * dt⌋,
                speedPxPerSec := s7.speedPxPerSec + 4 * dt,
                gameSpeed := (s7.speedPxPerSec + 4 * dt) * dt } := by
  rw [gameLoop_running env ts s hover hp]
  dsimp only
  have h1 := handleObstaclesLoop_miss s.obstacles []
    { ({ requestAnimationFrame s with lastTime := ts } : State) with
      player := s.player.update s.gravity env.canvasHeight (frameDt ts s) }
    (List.append_nil _).symm hall
  unfold handleObstacles
  have hlen : ({ ({ requestAnimationFrame s with lastTime := ts } : State) with
      player := s.player.update s.gravity env.canvasHeight (frameDt ts s) } : State).obstacles.length
      = s.obstacles.length := rfl
  rw [hlen, h1, handleCoins_eq, List.append_nil]
  rfl

/-- A running frame with no hit and no spawn: the entity lists afterwards. -/
theorem gameLoop_quiet_lists (env : Env) (ts : ℚ) (s : State)
    (hover : s.isGameOver = false) (hp : s.paused = false)
    (hall : (s.obstacles.map (Obstacle.update s.gameSpeed)).all
      (fun o => !collides (s.player.update s.gravity env.canvasHeight (frameDt ts s)).box o.box)
        = true)
    (hidle : s.spawnElapsed + frameDt ts s < s.spawnInterval) :
    (gameLoop env ts s).obstacles =
      (s.obstacles.map (Obstacle.update s.gameSpeed)).filter obstacleKept ∧
    (gameLoop env ts s).coins =
      (s.coins.map (Coin.update s.gameSpeed)).filter
        (coinKept (s.player.update s.gravity env.canvasHeight (frameDt ts s))) := by
  rw [gameLoop_no_collision env ts s hover hp hall]
  dsimp only
  rw [spawnManager_idle env (frameDt ts s)
    { requestAnimationFrame s with
      lastTime := ts, player := s.player.update s.gravity env.canvasHeight (frameDt ts s),
      obstacles := (s.obstacles.map (Obstacle.update s.gameSpeed)).filter obstacleKept,
      coinsCount := s.coinsCount +
        ((s.coins.map (Coin.update s.gameSpeed)).countP
          (pickup (s.player.update s.gravity env.canvasHeight (frameDt ts s))) : ℕ),
      coins := (s.coins.map (Coin.update s.gameSpeed)).filter
        (coinKept (s.player.update s.gravity env.canvasHeight (frameDt ts s))) } hidle]
  exact ⟨rfl, rfl⟩

/-- The clamped delta of the late sample frame. -/
theorem sampleRunning_frameDt : frameDt 3050 sampleRunningState = 0.05 := by
  norm_num [frameDt, sampleRunningState]

/-- The grounded player of the running sample stays on the ground line. -/
theorem sampleRunning_player :
    sampleRunningState.player.update sampleRunningState.gravity sampleEnv.canvasHeight 0.05 =
      { samplePlayerGrounded with animT := 2.05 } := by
  norm_num [Player.update, sampleRunningState, samplePlayerGrounded, Player.groundY, sampleEnv]

/-- C12 (the code evaluated at a frame that arrives late): the frame's delta
is `0.05`, yet the obstacle and the coin are moved left by `gameSpeed = 4.96`,
the distance stored at the end of the previous frame (`248 * 0.02`), not by
the scroll speed times this frame's delta (`248 * 0.05 = 12.4`, or `12.41`
with the speed as increased in this frame). -/
theorem scroll_uses_previous_frame :
    sampleRunningState.isGameOver = false ∧ sampleRunningState.paused = false ∧
    frameDt 3050 sampleRunningState = 0.05 ∧
    sampleRunningState.obstacles = [⟨89864 / 125, 426, 198 / 5, 60, "#c0392b"⟩] ∧
    sampleRunningState.coins = [⟨89864 / 125, 426, 14, "#f1c40f"⟩] ∧
    (gameLoop sampleEnv 3050 sampleRunningState).obstacles =
      [⟨89864 / 125 - 124 / 25, 426, 198 / 5, 60, "#c0392b"⟩] ∧
    (gameLoop sampleEnv 3050 sampleRunningState).coins =
      [⟨89864 / 125 - 124 / 25, 426, 14, "#f1c40f"⟩] ∧
    sampleRunningState.speedPxPerSec * frameDt 3050 sampleRunningState = 62 / 5 ∧
    (gameLoop sampleEnv 3050 sampleRunningState).speedPxPerSec *
      frameDt 3050 sampleRunningState = 1241 / 100 := by
  have hall : (sampleRunningState.obstacles.map (Obstacle.update sampleRunningState.gameSpeed)).all
      (fun o => !collides (sampleRunningState.player.update sampleRunningState.gravity
        sampleEnv.canvasHeight (frameDt 3050 sampleRunningState)).box o.box) = true := by
    rw [sampleRunning_frameDt, sampleRunning_player]
    norm_num [sampleRunningState, Obstacle.update, collides, Player.box, Obstacle.box,
      samplePlayerGrounded]
  have hidle : sampleRunningState.spawnElapsed + frameDt 3050 sampleRunningState <
      sampleRunningState.spawnInterval := by
    rw [sampleRunning_frameDt]
    norm_num [sampleRunningState]
  have h := gameLoop_quiet_lists sampleEnv 3050 sampleRunningState rfl rfl hall hidle
  have hs := (gameLoop_running_speed sampleEnv 3050 sampleRunningState rfl rfl).1
  rw [h.1, h.2, hs, sampleRunning_frameDt, sampleRunning_player]
  refine ⟨rfl, rfl, rfl, rfl, rfl, ?_, ?_, ?_, ?_⟩
  · norm_num [sampleRunningState, Obstacle.update, obstacleKept]
  · norm_num [sampleRunningState, Coin.update, coinKept, pickup, hypotLt, samplePlayerGrounded]
  · norm_num [sampleRunningState]
  · norm_num [sampleRunningState]

/-! ### Spawn attributes -/

/-- C13: for random draws in `[0, 1)` and any canvas size, `spawnObstacle`
appends one obstacle with height in `[40, 90)`, width in `[30, 54)`, left edge
at `canvasWidth + 16` (beyond the right edge) and bottom edge `y + h` exactly at
`canvasHeight - 20`; and `spawnCoin` appends one coin of radius 14 whose centre
is at least 80 and less than 200 above the bottom of the canvas. -/
theorem spawn_attribute_bounds (env : Env) (s : State) :
    (0 ≤ env.rand s.randIdx → env.rand s.randIdx < 1 →
      0 ≤ env.rand (s.randIdx + 1) → env.rand (s.randIdx + 1) < 1 →
      ∃ o : Obstacle, (spawnObstacle env s).obstacles = s.obstacles ++ [o] ∧
        40 ≤ o.h ∧ o.h < 90 ∧ 30 ≤ o.w ∧ o.w < 54 ∧
        o.x = (env.canvasWidth : ℚ) + 16 ∧ (env.canvasWidth : ℚ) < o.x ∧
        o.y + o.h = (env.canvasHeight : ℚ) - 20) ∧
    (0 ≤ env.rand s.randIdx → env.rand s.randIdx < 1 →
      ∃ c : Coin, (spawnCoin env s).coins = s.coins ++ [c] ∧ c.r = 14 ∧
        c.x = (env.canvasWidth : ℚ) + 16 ∧
        80 ≤ (env.canvasHeight : ℚ) - c.y ∧ (env.canvasHeight : ℚ) - c.y < 200) := by
  constructor
  · intro h0 h1 w0 w1
    refine ⟨_, rfl, ?_, ?_, ?_, ?_, rfl, ?_, ?_⟩ <;> dsimp only <;> linarith
  · intro h0 h1
    refine ⟨_, rfl, rfl, rfl, ?_, ?_⟩ <;> dsimp only <;> linarith

/-- Witness for C13: the draws at the cursor of the sample session. -/
theorem spawn_attribute_bounds_witness :
    (0 ≤ sampleEnv.rand 12 ∧ sampleEnv.rand 12 < 1 ∧ 0 ≤ sampleEnv.rand 13 ∧
      sampleEnv.rand 13 < 1) ∧
    (∃ o : Obstacle,
      (spawnObstacle sampleEnv sampleCollisionState).obstacles =
        sampleCollisionState.obstacles ++ [o] ∧
      40 ≤ o.h ∧ o.h < 90 ∧ 30 ≤ o.w ∧ o.w < 54 ∧
      o.x = (sampleEnv.canvasWidth : ℚ) + 16 ∧ (sampleEnv.canvasWidth : ℚ) < o.x ∧
      o.y + o.h = (sampleEnv.canvasHeight : ℚ) - 20) ∧
    (∃ c : Coin,
      (spawnCoin sampleEnv sampleCollisionState).coins = sampleCollisionState.coins ++ [c] ∧
      c.r = 14 ∧ c.x = (sampleEnv.canvasWidth : ℚ) + 16 ∧
      80 ≤ (sampleEnv.canvasHeight : ℚ) - c.y ∧ (sampleEnv.canvasHeight : ℚ) - c.y < 200) :=
  have a0 : 0 ≤ sampleEnv.rand 12 := by norm_num [sampleEnv]
  have a1 : sampleEnv.rand 12 < 1 := by norm_num [sampleEnv]
  have b0 : 0 ≤ sampleEnv.rand 13 := by norm_num [sampleEnv]
  have b1 : sampleEnv.rand 13 < 1 := by norm_num [sampleEnv]
  ⟨⟨a0, a1, b0, b1⟩,
    (spawn_attribute_bounds sampleEnv sampleCollisionState).1 a0 a1 b0 b1,
    (spawn_attribute_bounds sampleEnv sampleCollisionState).2 a0 a1⟩

/-! ### Obstacle collisions -/

/-- Unfolding of `collides`: four strict inequalities. -/
theorem collides_iff (a b : Box) :
    collides a b = true ↔
      a.x < b.x + b.w ∧ b.x < a.x + a.w ∧ a.y < b.y + b.h ∧ b.y < a.y + a.h := by
  unfold collides
  simp only [Bool.and_eq_true, decide_eq_true_eq, gt_iff_lt]
  tauto

/-- C15: `handleObstacles` ends the game exactly when some obstacle, at its
position after this frame's move, overlaps the player's box strictly on both
axes: on a hit it ends in `endGame()`, otherwise it only rewrites the obstacle
list; `collides` is the conjunction of strict inequalities on each axis (for
boxes of positive size: the intersection has positive extent on both axes),
and boxes that merely touch along an edge or at a corner do not collide. -/
theorem handleObstacles_gameOver_iff (s : State) :
    ((∃ o ∈ s.obstacles, collides s.player.box (o.update s.gameSpeed).box = true) →
      ∃ obs, handleObstacles s = endGame { s with obstacles := obs }) ∧
    ((¬ ∃ o ∈ s.obstacles, collides s.player.box (o.update s.gameSpeed).box = true) →
      ∃ obs, handleObstacles s = { s with obstacles := obs }) ∧
    (s.isGameOver = false →
      ((handleObstacles s).isGameOver = true ↔
        ∃ o ∈ s.obstacles, collides s.player.box (o.update s.gameSpeed).box = true)) ∧
    (∀ a b : Box, collides a b = true ↔
      (a.x < b.x + b.w ∧ b.x < a.x + a.w) ∧ (a.y < b.y + b.h ∧ b.y < a.y + a.h)) ∧
    (∀ a b : Box, 0 < a.w → 0 < a.h → 0 < b.w → 0 < b.h →
      (collides a b = true ↔
        max a.x b.x < min (a.x + a.w) (b.x + b.w) ∧
          max a.y b.y < min (a.y + a.h) (b.y + b.h))) ∧
    (∀ a b : Box,
      a.x + a.w = b.x ∨ b.x + b.w = a.x ∨ a.y + a.h = b.y ∨ b.y + b.h = a.y →
      collides a b = false) := by
  have hhit : (∃ o ∈ s.obstacles, collides s.player.box (o.update s.gameSpeed).box = true) →
      ∃ obs, handleObstacles s = endGame { s with obstacles := obs } := by
    rintro ⟨o, ho, hc⟩
    have hany : (s.obstacles.map (Obstacle.update s.gameSpeed)).any
        (fun o => collides s.player.box o.box) = true := by
      rw [List.any_eq_true]
      exact ⟨o.update s.gameSpeed, List.mem_map_of_mem _ ho, hc⟩
    exact handleObstaclesLoop_hit s.obstacles [] s (List.append_nil _).symm hany
  have hmiss : (¬ ∃ o ∈ s.obstacles, collides s.player.box (o.update s.gameSpeed).box = true) →
      ∃ obs, handleObstacles s = { s with obstacles := obs } := by
    intro hno
    have hall : (s.obstacles.map (Obstacle.update s.gameSpeed)).all
        (fun o => !collides s.player.box o.box) = true := by
      rw [List.all_eq_true]
      intro o ho
      obtain ⟨o0, ho0, rfl⟩ := List.mem_map.mp ho
      cases hc : collides s.player.box (Obstacle.update s.gameSpeed o0).box
      · rfl
      · exact absurd ⟨o0, ho0, hc⟩ hno
    exact ⟨_, handleObstaclesLoop_miss s.obstacles [] s (List.append_nil _).symm hall⟩
  refine ⟨hhit, hmiss, ?_, ?_, ?_, ?_⟩
  · intro hover
    constructor
    · intro h
      by_contra hno
      obtain ⟨obs, hobs⟩ := hmiss hno
      rw [hobs] at h
      dsimp only at h
      rw [hover] at h
      exact Bool.false_ne_true h
    · intro h
      obtain ⟨obs, hobs⟩ := hhit h
      rw [hobs]
      rfl
  · intro a b
    rw [collides_iff]
    tauto
  · intro a b ha1 ha2 hb1 hb2
    rw [collides_iff]
    simp only [max_lt_iff, lt_min_iff]
    constructor
    · rintro ⟨h1, h2, h3, h4⟩
      refine ⟨⟨⟨?_, ?_⟩, ⟨?_, ?_⟩⟩, ⟨⟨?_, ?_⟩, ⟨?_, ?_⟩⟩⟩ <;> linarith
    · rintro ⟨⟨⟨_, _⟩, ⟨_, _⟩⟩, ⟨⟨_, _⟩, ⟨_, _⟩⟩⟩
      refine ⟨?_, ?_, ?_, ?_⟩ <;> assumption
  · intro a b h
    rw [← Bool.not_eq_true, collides_iff]
    rintro ⟨h1, h2, h3, h4⟩
    rcases h with h | h | h | h <;> linarith


/-- Witness for C15: the sample obstacle hits the player after its move; the
running sample has no hit; two boxes sharing an edge do not collide. -/
theorem handleObstacles_gameOver_iff_witness :
    (sampleCollisionState.isGameOver = false ∧
      (handleObstacles sampleCollisionState).isGameOver = true) ∧
    (∃ obs, handleObstacles sampleRunningState = { sampleRunningState with obstacles := obs }) ∧
    collides ⟨0, 0, 10, 10⟩ ⟨10, 0, 10, 10⟩ = false ∧
    (collides ⟨0, 0, 10, 10⟩ ⟨5, 5, 10, 10⟩ = true ↔
      max (0 : ℚ) 5 < min (0 + 10) (5 + 10) ∧ max (0 : ℚ) 5 < min (0 + 10) (5 + 10)) :=
  have hhit : ∃ o ∈ sampleCollisionState.obstacles,
      collides sampleCollisionState.player.box
        (o.update sampleCollisionState.gameSpeed).box = true := by
    refine ⟨⟨57294 / 625, 426, 198 / 5, 60, "#c0392b"⟩, List.mem_cons_self _ _, ?_⟩
    norm_num [sampleCollisionState, samplePlayerGrounded, Obstacle.update, collides,
      Player.box, Obstacle.box]
  have hmiss : ¬ ∃ o ∈ sampleRunningState.obstacles,
      collides sampleRunningState.player.box
        (o.update sampleRunningState.gameSpeed).box = true := by
    norm_num [sampleRunningState, samplePlayerGrounded, Obstacle.update, collides,
      Player.box, Obstacle.box]
  ⟨⟨rfl, ((handleObstacles_gameOver_iff sampleCollisionState).2.2.1 rfl).mpr hhit⟩,
    (handleObstacles_gameOver_iff sampleRunningState).2.1 hmiss,
    (handleObstacles_gameOver_iff sampleRunningState).2.2.2.2.2 ⟨0, 0, 10, 10⟩ ⟨10, 0, 10, 10⟩
      (Or.inl (by norm_num)),
    (handleObstacles_gameOver_iff sampleRunningState).2.2.2.2.1 ⟨0, 0, 10, 10⟩ ⟨5, 5, 10, 10⟩
      (by norm_num) (by norm_num) (by norm_num) (by norm_num)⟩

/-! ### Off-screen culling -/

/-- C16: after a `handleObstacles` pass with no collision the obstacle list is
exactly the moved obstacles with `x + w >= 0`, each moved once and in their
original order; after `handleCoins` the coin list is exactly the moved coins
that were not picked up and have `x + r >= 0`, again in their original order. -/
theorem culling_preserves_rest (s : State) :
    ((s.obstacles.map (Obstacle.update s.gameSpeed)).all
        (fun o => !collides s.player.box o.box) = true →
      handleObstacles s =
        { s with obstacles := (s.obstacles.map (Obstacle.update s.gameSpeed)).filter
                    (fun o => decide (o.x + o.w ≥ 0)) } ∧
      List.Sublist (handleObstacles s).obstacles
        (s.obstacles.map (Obstacle.update s.gameSpeed))) ∧
    (handleCoins s).coins =
      (s.coins.map (Coin.update s.gameSpeed)).filter
        (fun c => !pickup s.player c && decide (c.x + c.r ≥ 0)) ∧
    List.Sublist (handleCoins s).coins (s.coins.map (Coin.update s.gameSpeed)) := by
  have hk : obstacleKept = fun o : Obstacle => decide (o.x + o.w ≥ 0) := by
    funext o
    unfold obstacleKept
    by_cases h : o.x + o.w < 0
    · simp [h, not_le.mpr h]
    · simp [h, not_lt.mp h]
  have hc : coinKept s.player =
      fun c : Coin => !pickup s.player c && decide (c.x + c.r ≥ 0) := by
    funext c
    unfold coinKept
    by_cases h : c.x + c.r < 0
    · simp [h, not_le.mpr h]
    · simp [h, not_lt.mp h]
  refine ⟨?_, ?_, ?_⟩
  · intro hall
    have h := handleObstaclesLoop_miss s.obstacles [] s (List.append_nil _).symm hall
    rw [List.append_nil, hk] at h
    unfold handleObstacles
    rw [h]
    exact ⟨rfl, List.filter_sublist _⟩
  · rw [handleCoins_eq, hc]
  · rw [handleCoins_eq]
    exact List.filter_sublist _

/-- Witness for C16: a pass over four obstacles in which the first one leaves
the screen and the other three stay in order, and a pass over four coins in
which the first one leaves the screen. -/
theorem culling_preserves_rest_witness :
    ((sampleCullState.obstacles.map (Obstacle.update sampleCullState.gameSpeed)).all
        (fun o => !collides sampleCullState.player.box o.box) = true ∧
      sampleCullState.obstacles.length = 4 ∧
      handleObstacles sampleCullState =
        { sampleCullState with
          obstacles := [⟨31703 / 125, 426, 198 / 5, 60, "#c0392b"⟩,
                        ⟨344306 / 625, 426, 198 / 5, 60, "#c0392b"⟩,
                        ⟨533578 / 625, 426, 198 / 5, 60, "#c0392b"⟩] }) ∧
    (sampleCoinCullState.coins.length = 4 ∧
      (handleCoins sampleCoinCullState).coins =
        [⟨180157 / 625, 426, 14, "#f1c40f"⟩,
         ⟨369614 / 625, 426, 14, "#f1c40f"⟩,
         ⟨559082 / 625, 426, 14, "#f1c40f"⟩]) :=
  have hall : (sampleCullState.obstacles.map
      (Obstacle.update sampleCullState.gameSpeed)).all
        (fun o => !collides sampleCullState.player.box o.box) = true := by
    norm_num [sampleCullState, Obstacle.update, collides, Player.box, Obstacle.box]
  have hobs : (sampleCullState.obstacles.map
      (Obstacle.update sampleCullState.gameSpeed)).filter
        (fun o => decide (o.x + o.w ≥ 0)) =
      [⟨31703 / 125, 426, 198 / 5, 60, "#c0392b"⟩,
       ⟨344306 / 625, 426, 198 / 5, 60, "#c0392b"⟩,
       ⟨533578 / 625, 426, 198 / 5, 60, "#c0392b"⟩] := by
    norm_num [sampleCullState, Obstacle.update, List.filter_cons]
  have hcoins : (sampleCoinCullState.coins.map
      (Coin.update sampleCoinCullState.gameSpeed)).filter
        (fun c => !pickup sampleCoinCullState.player c && decide (c.x + c.r ≥ 0)) =
      [⟨180157 / 625, 426, 14, "#f1c40f"⟩,
       ⟨369614 / 625, 426, 14, "#f1c40f"⟩,
       ⟨559082 / 625, 426, 14, "#f1c40f"⟩] := by
    norm_num [sampleCoinCullState, Coin.update, List.filter_cons, pickup, hypotLt]
  ⟨⟨hall, rfl,
      ((culling_preserves_rest sampleCullState).1 hall).1.trans
        (congrArg (fun l => ({ sampleCullState with obstacles := l } : State)) hobs)⟩,
    ⟨rfl, (culling_preserves_rest sampleCoinCullState).2.1.trans hcoins⟩⟩

/-! ### Iterations of the spawn loop in exact arithmetic -/

/-- The timer after one loop iteration. -/
theorem spawnStep_spawnElapsed (env : Env) (s : State) :
    (spawnStep env s).spawnElapsed = s.spawnElapsed - s.spawnInterval := by
  obtain ⟨cs, h, _⟩ := spawnStep_eq env s
  rw [h]

/-- One loop iteration appends exactly one obstacle and at most one coin. -/
theorem spawnStep_appends (env : Env) (s : State) :
    ∃ (o : Obstacle) (cs : List Coin),
      (spawnStep env s).obstacles = s.obstacles ++ [o] ∧
      (spawnStep env s).coins = s.coins ++ cs ∧ cs.length ≤ 1 := by
  obtain ⟨cs, h, hcs⟩ := spawnStep_eq env s
  rw [h]
  exact ⟨_, cs, rfl, rfl, hcs⟩

/-- After `n` loop iterations `n` obstacles and at most `n` coins have been appended. -/
theorem spawnStep_iterate_appends (env : Env) (n : ℕ) :
    ∀ s : State, ∃ (os : List Obstacle) (cs : List Coin),
      ((spawnStep env)^[n] s).obstacles = s.obstacles ++ os ∧ os.length = n ∧
      ((spawnStep env)^[n] s).coins = s.coins ++ cs ∧ cs.length ≤ n := by
  induction n with
  | zero =>
    intro s
    exact ⟨[], [], by simp, rfl, by simp, le_refl _⟩
  | succ n ih =>
    intro s
    obtain ⟨o, cs1, ho, hc, hlen⟩ := spawnStep_appends env s
    obtain ⟨os, cs, hos, hosl, hcs, hcsl⟩ := ih (spawnStep env s)
    rw [Function.iterate_succ_apply, hos, hcs, ho, hc]
    refine ⟨o :: os, cs1 ++ cs, by simp, by simp [hosl], by simp, ?_⟩
    rw [List.length_append]
    omega

/-- The spawn loop runs the loop body some finite number `n` of times: the
loop condition holds before each of the `n` iterations and fails after the last. -/
theorem spawnLoop_iterations (env : Env) (s : State) :
    ∃ n : ℕ, spawnLoop env s = (spawnStep env)^[n] s ∧
      (∀ k < n, ((spawnStep env)^[k] s).spawnElapsed ≥ ((spawnStep env)^[k] s).spawnInterval) ∧
      (spawnLoop env s).spawnElapsed < (spawnLoop env s).spawnInterval := by
  induction s using spawnLoop.induct env with
  | case1 s hge ih =>
    obtain ⟨n, hn, hk, hlt⟩ := ih
    rw [spawnLoop, if_pos hge]
    refine ⟨n + 1, ?_, ?_, hlt⟩
    · rw [Function.iterate_succ_apply]
      exact hn
    · intro k hkn
      cases k with
      | zero => exact hge
      | succ k =>
        rw [Function.iterate_succ_apply]
        exact hk k (by omega)
  | case2 s hlt =>
    rw [spawnLoop, if_neg hlt]
    exact ⟨0, rfl, fun k hk => absurd hk (Nat.not_lt_zero k), not_le.mp hlt⟩

/-- With the timer below the interval and a delta of at most `0.05`,
`spawnManager(dt)` runs its loop body at most once: after one iteration less
than `0.05` is left on the timer, and the interval is at least `MIN_INTERVAL`. -/
theorem spawnManager_at_most_once (env : Env) (dt : ℚ) (s : State)
    (hlt : s.spawnElapsed < s.spawnInterval) (hdt : dt ≤ 0.05) :
    spawnManager env dt s = { s with spawnElapsed := s.spawnElapsed + dt } ∨
    (s.spawnInterval ≤ s.spawnElapsed + dt ∧
      spawnManager env dt s = spawnStep env { s with spawnElapsed := s.spawnElapsed + dt }) := by
  by_cases h : s.spawnElapsed + dt < s.spawnInterval
  · exact Or.inl (spawnManager_idle env dt s h)
  · right
    refine ⟨not_lt.mp h, ?_⟩
    unfold spawnManager
    rw [spawnLoop, if_pos (not_lt.mp h), spawnLoop, if_neg]
    rw [spawnStep_spawnElapsed, spawnStep_spawnInterval]
    dsimp only
    have h1 : MIN_INTERVAL ≤ max MIN_INTERVAL (s.spawnInterval * 0.992) := le_max_left _ _
    have h2 : (0.05 : ℚ) < MIN_INTERVAL := by norm_num [MIN_INTERVAL]
    intro hge
    have : s.spawnElapsed + dt - s.spawnInterval ≥ MIN_INTERVAL := le_trans h1 hge
    linarith

/-! ### Spawns per frame -/

/-- A running frame in terms of the state just before `spawnManager(dt)`. -/
theorem gameLoop_running_beforeSpawn (env : Env) (ts : ℚ) (s : State)
    (hover : s.isGameOver = false) (hp : s.paused = false) :
    gameLoop env ts s =
      { spawnManager env (frameDt ts s) (beforeSpawn env ts s) with
        score := (spawnManager env (frameDt ts s) (beforeSpawn env ts s)).score +
          ⌊60 * frameDt ts s⌋,
        speedPxPerSec :=
          (spawnManager env (frameDt ts s) (beforeSpawn env ts s)).speedPxPerSec +
            4 * frameDt ts s,
        gameSpeed :=
          ((spawnManager env (frameDt ts s) (beforeSpawn env ts s)).speedPxPerSec +
            4 * frameDt ts s) * frameDt ts s } := by
  rw [gameLoop_running env ts s hover hp]
  rfl

/-- The scans before `spawnManager` leave the spawn timer and interval alone. -/
theorem beforeSpawn_spawn_fields (env : Env) (ts : ℚ) (s : State) :
    (beforeSpawn env ts s).spawnElapsed = s.spawnElapsed ∧
    (beforeSpawn env ts s).spawnInterval = s.spawnInterval := by
  unfold beforeSpawn
  rw [handleCoins_eq]
  obtain ⟨obs, h1 | h1⟩ := handleObstacles_cases
    { requestAnimationFrame s with
      lastTime := ts,
      player := s.player.update s.gravity env.canvasHeight (frameDt ts s) }
  · rw [h1]; exact ⟨rfl, rfl⟩
  · rw [h1]; exact ⟨rfl, rfl⟩

/-- A frame appends at most one obstacle and at most one coin when the timer is
below the interval. -/
theorem gameLoop_appends_at_most_one (env : Env) (ts : ℚ) (s : State)
    (hover : s.isGameOver = false) (hp : s.paused = false)
    (hlt : s.spawnElapsed < s.spawnInterval) :
    ∃ (os : List Obstacle) (cs : List Coin),
      (gameLoop env ts s).obstacles = (beforeSpawn env ts s).obstacles ++ os ∧
      (gameLoop env ts s).coins = (beforeSpawn env ts s).coins ++ cs ∧
      os.length ≤ 1 ∧ cs.length ≤ os.length := by
  rw [gameLoop_running_beforeSpawn env ts s hover hp]
  dsimp only
  have hf := beforeSpawn_spawn_fields env ts s
  have hlt2 : (beforeSpawn env ts s).spawnElapsed < (beforeSpawn env ts s).spawnInterval := by
    rw [hf.1, hf.2]; exact hlt
  rcases spawnManager_at_most_once env (frameDt ts s) (beforeSpawn env ts s) hlt2
    (frameDt_le ts s) with h | ⟨_, h⟩
  · rw [h]
    exact ⟨[], [], by simp, by simp, by simp, le_refl _⟩
  · rw [h]
    obtain ⟨o, cs, ho, hc, hlen⟩ := spawnStep_appends env
      { beforeSpawn env ts s with
        spawnElapsed := (beforeSpawn env ts s).spawnElapsed + frameDt ts s }
    exact ⟨[o], cs, ho, hc, le_refl _, hlen⟩

/-- The spawn timer and interval after any frame. -/
theorem gameLoop_spawn_invariant (env : Env) (ts : ℚ) (s : State) (hts : s.lastTime ≤ ts)
    (h0 : 0 ≤ s.spawnElapsed) (hlt : s.spawnElapsed < s.spawnInterval)
    (hmin : MIN_INTERVAL ≤ s.spawnInterval) :
    0 ≤ (gameLoop env ts s).spawnElapsed ∧
    (gameLoop env ts s).spawnElapsed < (gameLoop env ts s).spawnInterval ∧
    MIN_INTERVAL ≤ (gameLoop env ts s).spawnInterval := by
  cases hover : s.isGameOver
  · cases hp : s.paused
    · rw [gameLoop_running_beforeSpawn env ts s hover hp]
      dsimp only
      have hf := beforeSpawn_spawn_fields env ts s
      have hlt2 : (beforeSpawn env ts s).spawnElapsed <
          (beforeSpawn env ts s).spawnInterval := by
        rw [hf.1, hf.2]; exact hlt
      have hmin2 : MIN_INTERVAL ≤ (beforeSpawn env ts s).spawnInterval := by
        rw [hf.2]; exact hmin
      have hdt := frameDt_nonneg ts s hts
      have hexit : (spawnManager env (frameDt ts s) (beforeSpawn env ts s)).spawnElapsed <
          (spawnManager env (frameDt ts s) (beforeSpawn env ts s)).spawnInterval :=
        (spawnLoop_iterations env _).choose_spec.2.2
      refine ⟨?_, hexit, (spawnManager_interval env _ _ hmin2).2⟩
      rcases spawnManager_at_most_once env (frameDt ts s) (beforeSpawn env ts s) hlt2
        (frameDt_le ts s) with h | ⟨hge, h⟩
      · rw [h]
        dsimp only
        rw [hf.1]
        linarith
      · rw [h, spawnStep_spawnElapsed]
        dsimp only
        linarith
    · rw [gameLoop_paused env ts s hover hp]
      exact ⟨h0, hlt, hmin⟩
  · rw [gameLoop_over env ts s hover]
    exact ⟨h0, hlt, hmin⟩

/-- The spawn timer stays in `[0, spawnInterval)` and the interval at least
`MIN_INTERVAL` in every reachable state. -/
theorem reachable_spawn_invariant (s : State) (hr : Reachable s) :
    0 ≤ s.spawnElapsed ∧ s.spawnElapsed < s.spawnInterval ∧
      MIN_INTERVAL ≤ s.spawnInterval := by
  induction hr with
  | init env s0 => norm_num [init, MIN_INTERVAL]
  | frame env ts s _ hts ih => exact gameLoop_spawn_invariant env ts s hts ih.1 ih.2.1 ih.2.2
  | jump s _ ih => exact ih
  | togglePause s _ ih => exact ih
  | nextTheme s _ ih => exact ih

/-- C18: in every session state reachable from `init` through `gameLoop`
frames, `0 ≤ spawnElapsed < spawnInterval` and `spawnInterval ≥ 0.55` hold; the
delta of a frame is at most `0.05`; hence a running frame appends at most one
obstacle and at most one coin to the lists left by the scans (the spawn loop
body runs not at all or exactly once), and a paused or finished frame leaves
both lists as they are. -/
theorem at_most_one_spawn_per_frame (s : State) (hr : Reachable s) (env : Env) (ts : ℚ) :
    (0 ≤ s.spawnElapsed ∧ s.spawnElapsed < s.spawnInterval ∧ 0.55 ≤ s.spawnInterval) ∧
    frameDt ts s ≤ 0.05 ∧
    (s.isGameOver = false → s.paused = false →
      (∃ (os : List Obstacle) (cs : List Coin),
        (gameLoop env ts s).obstacles = (beforeSpawn env ts s).obstacles ++ os ∧
        (gameLoop env ts s).coins = (beforeSpawn env ts s).coins ++ cs ∧
        os.length ≤ 1 ∧ cs.length ≤ os.length) ∧
      (spawnManager env (frameDt ts s) (beforeSpawn env ts s) =
          { beforeSpawn env ts s with
            spawnElapsed := (beforeSpawn env ts s).spawnElapsed + frameDt ts s } ∨
        spawnManager env (frameDt ts s) (beforeSpawn env ts s) =
          spawnStep env { beforeSpawn env ts s with
            spawnElapsed := (beforeSpawn env ts s).spawnElapsed + frameDt ts s })) ∧
    (s.isGameOver = true ∨ s.paused = true →
      (gameLoop env ts s).obstacles = s.obstacles ∧ (gameLoop env ts s).coins = s.coins) := by
  have hinv := reachable_spawn_invariant s hr
  refine ⟨?_, frameDt_le ts s, ?_, ?_⟩
  · have : MIN_INTERVAL = 0.55 := rfl
    rw [← this]
    exact hinv
  · intro hover hp
    refine ⟨gameLoop_appends_at_most_one env ts s hover hp hinv.2.1, ?_⟩
    have hf := beforeSpawn_spawn_fields env ts s
    have hlt2 : (beforeSpawn env ts s).spawnElapsed <
        (beforeSpawn env ts s).spawnInterval := by
      rw [hf.1, hf.2]; exact hinv.2.1
    rcases spawnManager_at_most_once env (frameDt ts s) (beforeSpawn env ts s) hlt2
      (frameDt_le ts s) with h | ⟨_, h⟩
    · exact Or.inl h
    · exact Or.inr h
  · intro h
    cases hover : s.isGameOver
    · have hp : s.paused = true := by
        rcases h with h | h
        · rw [hover] at h; exact absurd h Bool.false_ne_true
        · exact h
      rw [gameLoop_paused env ts s hover hp]
      exact ⟨rfl, rfl⟩
    · rw [gameLoop_over env ts s hover]
      exact ⟨rfl, rfl⟩

/-- A running frame with no hit and no spawn, in closed form. -/
theorem gameLoop_quiet (env : Env) (ts : ℚ) (s : State)
    (hover : s.isGameOver = false) (hp : s.paused = false)
    (hall : (s.obstacles.map (Obstacle.update s.gameSpeed)).all
      (fun o => !collides (s.player.update s.gravity env.canvasHeight (frameDt ts s)).box o.box)
        = true)
    (hidle : s.spawnElapsed + frameDt ts s < s.spawnInterval) :
    gameLoop env ts s =
      { requestAnimationFrame s with
        lastTime := ts,
        player := s.player.update s.gravity env.canvasHeight (frameDt ts s),
        obstacles := (s.obstacles.map (Obstacle.update s.gameSpeed)).filter obstacleKept,
        coinsCount := s.coinsCount +
          ((s.coins.map (Coin.update s.gameSpeed)).countP
            (pickup (s.player.update s.gravity env.canvasHeight (frameDt ts s))) : ℕ),
        coins := (s.coins.map (Coin.update s.gameSpeed)).filter
          (coinKept (s.player.update s.gravity env.canvasHeight (frameDt ts s))),
        spawnElapsed := s.spawnElapsed + frameDt ts s,
        score := s.score + ⌊60 * frameDt ts s⌋,
        speedPxPerSec := s.speedPxPerSec + 4 * frameDt ts s,
        gameSpeed := (s.speedPxPerSec + 4 * frameDt ts s) * frameDt ts s } := by
  rw [gameLoop_no_collision env ts s hover hp hall]
  dsimp only
  rw [spawnManager_idle env (frameDt ts s)
    { requestAnimationFrame s with
      lastTime := ts, player := s.player.update s.gravity env.canvasHeight (frameDt ts s),
      obstacles := (s.obstacles.map (Obstacle.update s.gameSpeed)).filter obstacleKept,
      coinsCount := s.coinsCount +
        ((s.coins.map (Coin.update s.gameSpeed)).countP
          (pickup (s.player.update s.gravity env.canvasHeight (frameDt ts s))) : ℕ),
      coins := (s.coins.map (Coin.update s.gameSpeed)).filter
        (coinKept (s.player.update s.gravity env.canvasHeight (frameDt ts s))) } hidle]
  rfl

/-- A frame before the first spawn keeps the session quiet and advances the timer. -/
theorem quiet_step (env : Env) (ts e t d : ℚ) (s : State) (hq : Quiet e t s)
    (hd : frameDt ts s = d) (hlt : e + d < 1.2) : Quiet (e + d) ts (gameLoop env ts s) := by
  obtain ⟨hover, hp, hobs, hcoins, hint, hel, _, hr, hth⟩ := hq
  have hall : (s.obstacles.map (Obstacle.update s.gameSpeed)).all
      (fun o => !collides (s.player.update s.gravity env.canvasHeight (frameDt ts s)).box o.box)
        = true := by
    rw [hobs]; rfl
  have hidle : s.spawnElapsed + frameDt ts s < s.spawnInterval := by
    rw [hel, hd, hint]; exact hlt
  rw [gameLoop_quiet env ts s hover hp hall hidle]
  refine ⟨hover, hp, ?_, ?_, hint, ?_, rfl, hr, hth⟩
  · show (s.obstacles.map (Obstacle.update s.gameSpeed)).filter obstacleKept = []
    rw [hobs]; rfl
  · show (s.coins.map (Coin.update s.gameSpeed)).filter _ = []
    rw [hcoins]; rfl
  · show s.spawnElapsed + frameDt ts s = e + d
    rw [hel, hd]

/-- The frames of the sample session, one more at the end. -/
theorem warmupFrames_succ (n : ℕ) :
    warmupFrames (n + 1) = warmupFrames n ++ [(sampleEnv, 1000 + 50 * (n : ℚ))] := by
  unfold warmupFrames
  rw [List.range_succ, List.map_append]
  rfl

/-- Running two sequences of frames one after the other. -/
theorem gameRun_append (fs gs : List (Env × ℚ)) (s : State) :
    gameRun (fs ++ gs) s = gameRun gs (gameRun fs s) := by
  unfold gameRun
  rw [List.foldl_append]

/-- The sample session stays quiet and reachable during its first 24 frames. -/
theorem warmup_quiet (n : ℕ) (hn : n ≤ 23) :
    Reachable (gameRun (warmupFrames (n + 1)) (init sampleEnv sampleCollisionState)) ∧
    Quiet (0.05 * n) (1000 + 50 * n)
      (gameRun (warmupFrames (n + 1)) (init sampleEnv sampleCollisionState)) := by
  induction n with
  | zero =>
    have hq0 : Quiet 0 0 (init sampleEnv sampleCollisionState) :=
      ⟨rfl, rfl, rfl, rfl, rfl, rfl, rfl, rfl, rfl⟩
    have hd : frameDt 1000 (init sampleEnv sampleCollisionState) = 0 := by
      norm_num [frameDt, init]
    have h := quiet_step sampleEnv 1000 0 0 0 _ hq0 hd (by norm_num)
    have hr : Reachable (gameLoop sampleEnv 1000 (init sampleEnv sampleCollisionState)) :=
      Reachable.frame _ _ _ (Reachable.init _ _) (by norm_num [init])
    have hrun : gameRun (warmupFrames (0 + 1)) (init sampleEnv sampleCollisionState) =
        gameLoop sampleEnv 1000 (init sampleEnv sampleCollisionState) := by
      simp [warmupFrames, gameRun, List.range_succ]
    rw [hrun]
    refine ⟨hr, ?_⟩
    norm_num at h ⊢
    exact h
  | succ n ih =>
    obtain ⟨hr, hq⟩ := ih (by omega)
    rw [warmupFrames_succ, gameRun_append]
    have hlast := hq.2.2.2.2.2.2.1
    have hd : frameDt (1000 + 50 * ((n + 1 : ℕ) : ℚ))
        (gameRun (warmupFrames (n + 1)) (init sampleEnv sampleCollisionState)) = 0.05 := by
      unfold frameDt
      rw [hlast]
      have hne : (1000 + 50 * (n : ℚ)) ≠ 0 := by positivity
      rw [if_neg hne]
      push_cast
      norm_num
      ring_nf
      norm_num
    have hn' : (n : ℚ) ≤ 22 := by exact_mod_cast (by omega : n ≤ 22)
    have h := quiet_step sampleEnv (1000 + 50 * ((n + 1 : ℕ) : ℚ)) (0.05 * n) (1000 + 50 * n)
      0.05 _ hq hd (by norm_num; linarith)
    constructor
    · exact Reachable.frame _ _ _ hr (by rw [hlast]; push_cast; linarith)
    · have he : (0.05 : ℚ) * ((n + 1 : ℕ) : ℚ) = 0.05 * n + 0.05 := by push_cast; ring
      rw [he]
      exact h

/-- With empty entity lists the scans before `spawnManager` have nothing to do. -/
theorem beforeSpawn_empty (env : Env) (ts : ℚ) (s : State)
    (hobs : s.obstacles = []) (hcoins : s.coins = []) :
    beforeSpawn env ts s =
      { requestAnimationFrame s with
        lastTime := ts,
        player := s.player.update s.gravity env.canvasHeight (frameDt ts s) } := by
  obtain ⟨_⟩ := s
  dsimp only at hobs hcoins
  subst hobs hcoins
  unfold beforeSpawn
  rw [handleCoins_eq]
  simp [handleObstacles, handleObstaclesLoop, requestAnimationFrame]

/-- When the timer reaches the interval, `spawnManager(dt)` runs its loop body once. -/
theorem spawnManager_once (env : Env) (dt : ℚ) (s : State)
    (hlt : s.spawnElapsed < s.spawnInterval) (hdt : dt ≤ 0.05)
    (hge : s.spawnInterval ≤ s.spawnElapsed + dt) :
    spawnManager env dt s = spawnStep env { s with spawnElapsed := s.spawnElapsed + dt } := by
  rcases spawnManager_at_most_once env dt s hlt hdt with h | ⟨_, h⟩
  · exfalso
    have hidle : ¬ s.spawnElapsed + dt < s.spawnInterval := not_lt.mpr hge
    apply hidle
    obtain ⟨n, _, _, hexit⟩ := spawnLoop_iterations env
      { s with spawnElapsed := s.spawnElapsed + dt }
    unfold spawnManager at h
    rw [h] at hexit
    exact hexit
  · exact h

/-- The obstacle appended by one loop iteration. -/
theorem spawnStep_obstacles (env : Env) (s : State) :
    (spawnStep env s).obstacles = s.obstacles ++
      [⟨(env.canvasWidth : ℚ) + 16,
        (env.canvasHeight : ℚ) - (env.rand s.randIdx * 50 + 40) - 20,
        env.rand (s.randIdx + 1) * 24 + 30, env.rand s.randIdx * 50 + 40,
        (currentTheme s.themeIndex).obstacle⟩] := by
  obtain ⟨cs, h, _⟩ := spawnStep_eq env s
  rw [h]

/-- The coin appended by one loop iteration when the third draw is below `0.55`. -/
theorem spawnStep_coins (env : Env) (s : State) (h : env.rand (s.randIdx + 2) < 0.55) :
    (spawnStep env s).coins = s.coins ++
      [⟨(env.canvasWidth : ℚ) + 16,
        (env.canvasHeight : ℚ) - (env.rand (s.randIdx + 3) * 120 + 80), 14,
        env.coinColor⟩] := by
  unfold spawnStep spawnObstacle spawnCoin
  dsimp only
  rw [if_pos h]

/-- The frame of a quiet session in which the timer reaches the interval
spawns one obstacle and one coin. -/
theorem quiet_spawn_frame (ts e t : ℚ) (s : State) (hq : Quiet e t s)
    (hlt : e < 1.2) (hge : 1.2 ≤ e + frameDt ts s) :
    (gameLoop sampleEnv ts s).obstacles = [⟨916, 426, 198 / 5, 60, "#c0392b"⟩] ∧
    (gameLoop sampleEnv ts s).coins = [⟨916, 426, 14, "#f1c40f"⟩] := by
  obtain ⟨hover, hp, hobs, hcoins, hint, hel, _, hr, hth⟩ := hq
  rw [gameLoop_running_beforeSpawn sampleEnv ts s hover hp]
  dsimp only
  have hB := beforeSpawn_empty sampleEnv ts s hobs hcoins
  have hstep := spawnManager_once sampleEnv (frameDt ts s) (beforeSpawn sampleEnv ts s)
    (by rw [hB]; show s.spawnElapsed < s.spawnInterval; rw [hel, hint]; exact hlt)
    (frameDt_le ts s)
    (by rw [hB]; show s.spawnInterval ≤ s.spawnElapsed + frameDt ts s; rw [hel, hint]; exact hge)
  rw [hstep, spawnStep_obstacles, spawnStep_coins]
  · rw [hB]
    dsimp only
    show s.obstacles ++ _ = _ ∧ s.coins ++ _ = _
    rw [hobs, hcoins]
    have h1 : (requestAnimationFrame s).randIdx = 12 := hr
    have h2 : (requestAnimationFrame s).themeIndex = 0 := hth
    rw [h1, h2]
    norm_num [sampleEnv, currentTheme, THEMES]
  · rw [hB]
    have h1 : ({ ({ requestAnimationFrame s with
        lastTime := ts,
        player := s.player.update s.gravity sampleEnv.canvasHeight (frameDt ts s) } : State) with
        spawnElapsed := ({ requestAnimationFrame s with
          lastTime := ts,
          player := s.player.update s.gravity sampleEnv.canvasHeight (frameDt ts s) }
            : State).spawnElapsed + frameDt ts s } : State).randIdx = 12 := hr
    rw [h1]
    norm_num [sampleEnv]

/-- Witness for C18: the frame of the restarted sample session in which the
timer reaches the interval, 25 frames after `init`, spawns exactly one obstacle
and one coin; and a frame after pausing appends nothing. -/
theorem at_most_one_spawn_per_frame_witness :
    (Reachable sampleBeforeSpawnState ∧
      sampleBeforeSpawnState.isGameOver = false ∧ sampleBeforeSpawnState.paused = false ∧
      (∃ (os : List Obstacle) (cs : List Coin),
        (gameLoop sampleEnv 2200 sampleBeforeSpawnState).obstacles =
          (beforeSpawn sampleEnv 2200 sampleBeforeSpawnState).obstacles ++ os ∧
        (gameLoop sampleEnv 2200 sampleBeforeSpawnState).coins =
          (beforeSpawn sampleEnv 2200 sampleBeforeSpawnState).coins ++ cs ∧
        os.length ≤ 1 ∧ cs.length ≤ os.length) ∧
      sampleBeforeSpawnState.obstacles = [] ∧ sampleBeforeSpawnState.coins = [] ∧
      (gameLoop sampleEnv 2200 sampleBeforeSpawnState).obstacles =
        [⟨916, 426, 198 / 5, 60, "#c0392b"⟩] ∧
      (gameLoop sampleEnv 2200 sampleBeforeSpawnState).coins =
        [⟨916, 426, 14, "#f1c40f"⟩]) ∧
    (Reachable { init sampleEnv sampleCollisionState with
        paused := !(init sampleEnv sampleCollisionState).paused } ∧
      (gameLoop sampleEnv 1000 { init sampleEnv sampleCollisionState with
        paused := !(init sampleEnv sampleCollisionState).paused }).obstacles = []) :=
  have hw := warmup_quiet 23 (le_refl 23)
  have hq : Quiet (0.05 * (23 : ℕ)) (1000 + 50 * (23 : ℕ)) sampleBeforeSpawnState := hw.2
  have hd : frameDt 2200 sampleBeforeSpawnState = 0.05 := by
    unfold frameDt
    rw [hq.2.2.2.2.2.2.1]
    norm_num
  have hs := quiet_spawn_frame 2200 _ _ sampleBeforeSpawnState hq (by norm_num)
    (by rw [hd]; norm_num)
  ⟨⟨hw.1, hq.1, hq.2.1,
      ((at_most_one_spawn_per_frame sampleBeforeSpawnState hw.1 sampleEnv 2200).2.2.1
        hq.1 hq.2.1).1,
      hq.2.2.1, hq.2.2.2.1, hs.1, hs.2⟩,
    ⟨Reachable.togglePause _ (Reachable.init sampleEnv sampleCollisionState),
      ((at_most_one_spawn_per_frame _
        (Reachable.togglePause _ (Reachable.init sampleEnv sampleCollisionState))
        sampleEnv 1000).2.2.2 (Or.inr rfl)).1⟩⟩

/-! ### Score increments -/

/-- The score is unchanged by a frame whose clamped delta is in `[0, 1/60)`. -/
theorem gameLoop_short_frame_score (env : Env) (ts : ℚ) (s : State)
    (h0 : 0 ≤ frameDt ts s) (h1 : frameDt ts s < 1 / 60) :
    (gameLoop env ts s).score = s.score := by
  cases hover : s.isGameOver
  · cases hp : s.paused
    · rw [gameLoop_running_score env ts s hover hp]
      have : ⌊60 * frameDt ts s⌋ = 0 := by
        rw [Int.floor_eq_iff]
        constructor
        · push_cast; linarith
        · push_cast; linarith
      rw [this, add_zero]
    · rw [gameLoop_paused env ts s hover hp]
      rfl
  · rw [gameLoop_over env ts s hover]

/-- A run of frames that are all shorter than 1/60 second leaves the score as it is. -/
theorem gameRun_short_frames_score (frames : List (Env × ℚ)) :
    ∀ s : State, shortFrames frames s = true → (gameRun frames s).score = s.score := by
  induction frames with
  | nil => intro s _; rfl
  | cons f fs ih =>
    intro s h
    unfold shortFrames at h
    rw [Bool.and_eq_true, Bool.and_eq_true, decide_eq_true_eq, decide_eq_true_eq] at h
    unfold gameRun
    rw [List.foldl_cons]
    have := ih (gameLoop f.1 f.2 s) h.2
    unfold gameRun at this
    rw [this]
    exact gameLoop_short_frame_score f.1 f.2 s h.1.1 h.1.2

/-- C20: in a running frame whose timestamp does not go back the score grows
by 0, 1, 2 or 3; in a frame whose clamped delta is in `[0, 1/60)` it does not
grow at all; hence a session all of whose frames are shorter than 1/60 second
keeps its score, however many frames it runs. -/
theorem score_increment_frame_rate (env : Env) (ts : ℚ) (s : State) :
    (s.isGameOver = false → s.paused = false → s.lastTime ≤ ts →
      (gameLoop env ts s).score = s.score ∨ (gameLoop env ts s).score = s.score + 1 ∨
      (gameLoop env ts s).score = s.score + 2 ∨ (gameLoop env ts s).score = s.score + 3) ∧
    (s.isGameOver = false → s.paused = false →
      0 ≤ frameDt ts s → frameDt ts s < 1 / 60 → (gameLoop env ts s).score = s.score) ∧
    (∀ (frames : List (Env × ℚ)) (t : State),
      shortFrames frames t = true → (gameRun frames t).score = t.score) := by
  refine ⟨?_, ?_, gameRun_short_frames_score⟩
  · intro hover hp hts
    rw [gameLoop_running_score env ts s hover hp]
    have h0 := frameDt_nonneg ts s hts
    have h1 := frameDt_le ts s
    have hlo : (0 : ℤ) ≤ ⌊60 * frameDt ts s⌋ := Int.floor_nonneg.mpr (by linarith)
    have hhi : ⌊60 * frameDt ts s⌋ < 4 := by
      rw [Int.floor_lt]
      push_cast
      norm_num at h1 ⊢
      linarith
    omega
  · intro _ _ h0 h1
    exact gameLoop_short_frame_score env ts s h0 h1

/-- Witness for C20: a 50 ms frame and a 10 ms frame of the running sample session. -/
theorem score_increment_frame_rate_witness :
    (sampleRunningState.isGameOver = false ∧ sampleRunningState.paused = false ∧
      sampleRunningState.lastTime ≤ 3050 ∧
      ((gameLoop sampleEnv 3050 sampleRunningState).score = sampleRunningState.score ∨
        (gameLoop sampleEnv 3050 sampleRunningState).score = sampleRunningState.score + 1 ∨
        (gameLoop sampleEnv 3050 sampleRunningState).score = sampleRunningState.score + 2 ∨
        (gameLoop sampleEnv 3050 sampleRunningState).score = sampleRunningState.score + 3)) ∧
    (0 ≤ frameDt 3010 sampleRunningState ∧ frameDt 3010 sampleRunningState < 1 / 60 ∧
      (gameLoop sampleEnv 3010 sampleRunningState).score = sampleRunningState.score) ∧
    (shortFrames [(sampleEnv, 3010)] sampleRunningState = true ∧
      (gameRun [(sampleEnv, 3010)] sampleRunningState).score = sampleRunningState.score) :=
  have hts : sampleRunningState.lastTime ≤ 3050 := by norm_num [sampleRunningState]
  have hd : frameDt 3010 sampleRunningState = 0.01 := by
    norm_num [frameDt, sampleRunningState]
  have h0 : 0 ≤ frameDt 3010 sampleRunningState := by rw [hd]; norm_num
  have h1 : frameDt 3010 sampleRunningState < 1 / 60 := by rw [hd]; norm_num
  have hs : shortFrames [(sampleEnv, 3010)] sampleRunningState = true := by
    simp only [shortFrames, Bool.and_true, Bool.and_eq_true, decide_eq_true_eq]
    exact ⟨h0, h1⟩
  ⟨⟨rfl, rfl, hts, (score_increment_frame_rate sampleEnv 3050 sampleRunningState).1 rfl rfl hts⟩,
    ⟨h0, h1, (score_increment_frame_rate sampleEnv 3010 sampleRunningState).2.1 rfl rfl h0 h1⟩,
    ⟨hs, (score_increment_frame_rate sampleEnv 3010 sampleRunningState).2.2 _ _ hs⟩⟩

/-! ### Leaderboard -/

/-- C19: for every stored leaderboard and every session state, the list stored
by `saveScore` has `min 10 (n + 1)` entries, hence at most 10; it is ordered
by score from highest to lowest; it is made only of previously stored entries
and the new entry with score `score + coinsCount*10`; and together with the
dropped entries it is a descending rearrangement of all of them, so that no
dropped entry has a higher score than a kept one. -/
theorem leaderboard_sorted_top10 (name date : String) (lb : List Entry) (s : State) :
    (saveScore name date lb s).length = min 10 (lb.length + 1) ∧
    (saveScore name date lb s).length ≤ 10 ∧
    List.Pairwise (fun a b => b.score ≤ a.score) (saveScore name date lb s) ∧
    List.Subperm (saveScore name date lb s)
      (lb ++ [(⟨name, s.score + s.coinsCount * 10, date⟩ : Entry)]) ∧
    ∃ dropped : List Entry,
      List.Perm (saveScore name date lb s ++ dropped)
        (lb ++ [(⟨name, s.score + s.coinsCount * 10, date⟩ : Entry)]) ∧
      List.Pairwise (fun a b => b.score ≤ a.score) (saveScore name date lb s ++ dropped) ∧
      ∀ kept ∈ saveScore name date lb s, ∀ d ∈ dropped, d.score ≤ kept.score := by
  generalize hnew : (⟨name, s.score + s.coinsCount * 10, date⟩ : Entry) = new
  have hsorted : List.Pairwise (fun a b : Entry => b.score ≤ a.score)
      ((lb ++ [new]).mergeSort (fun a b => decide (b.score - a.score ≤ 0))) := by
    have h := @List.sorted_mergeSort Entry (fun a b : Entry => decide (b.score - a.score ≤ 0))
      (by intro a b c hab hbc; simp only [decide_eq_true_eq] at hab hbc ⊢; linarith)
      (by
        intro a b
        simp only [Bool.or_eq_true, decide_eq_true_eq]
        rcases le_total a.score b.score with h | h
        · right; linarith
        · left; linarith)
      (lb ++ [new])
    refine h.imp ?_
    intro a b hab
    simp only [decide_eq_true_eq] at hab
    linarith
  have hperm := List.mergeSort_perm (lb ++ [new])
    (fun a b : Entry => decide (b.score - a.score ≤ 0))
  have hdef : saveScore name date lb s =
      ((lb ++ [new]).mergeSort (fun a b => decide (b.score - a.score ≤ 0))).take 10 := by
    rw [← hnew]
    rfl
  rw [hdef]
  refine ⟨?_, ?_, ?_, ?_, ?_⟩
  · rw [List.length_take, List.length_mergeSort, List.length_append, List.length_singleton]
  · rw [List.length_take]
    exact min_le_left _ _
  · exact hsorted.sublist (List.take_sublist _ _)
  · exact (List.take_sublist _ _).subperm.trans hperm.subperm
  · refine ⟨((lb ++ [new]).mergeSort
        (fun a b => decide (b.score - a.score ≤ 0))).drop 10, ?_, ?_, ?_⟩
    · rw [List.take_append_drop]
      exact hperm
    · rw [List.take_append_drop]
      exact hsorted
    · have h := hsorted
      rw [← List.take_append_drop 10 ((lb ++ [new]).mergeSort
        (fun a b => decide (b.score - a.score ≤ 0))), List.pairwise_append] at h
      exact h.2.2

/-! ### Settings defaults -/

/-- A missing or empty stored theme gives index 0, and the stored indices
written by the theme button give a defined theme. -/
theorem startGame_theme_missing :
    startGameThemeIndex none = some 0 ∧ startGameThemeIndex (some "") = some 0 ∧
    themeAt (startGameThemeIndex none) = some (THEMES 0) ∧
    themeAt (startGameThemeIndex (some "1")) = some (THEMES 1) ∧
    themeAt (startGameThemeIndex (some "2")) = some (THEMES 2) := by
  refine ⟨rfl, rfl, rfl, ?_, ?_⟩ <;> decide

/-- An entered name that is empty or consists of white space only is replaced
by the placeholder `'Pemain'`. -/
theorem startGameName_blank (input : String)
    (h : input.data.all jsWhiteSpace = true) : startGameName input = "Pemain" := by
  unfold startGameName
  by_cases he : input = ""
  · rw [if_pos he]
    decide
  · rw [if_neg he]
    have h1 : input.data.dropWhile jsWhiteSpace = [] := by
      rw [List.dropWhile_eq_nil_iff]
      exact fun x hx => List.all_eq_true.mp h x hx
    have h2 : jsTrim input.data = [] := by
      unfold jsTrim
      rw [h1]
      rfl
    dsimp only
    rw [h2]
    rfl

/-- C14 (the code evaluated at invalid stored themes): with the stored value
`"7"`, `startGame` sets `themeIndex` to `7`, and with `"abc"` to `NaN`; in both
cases `THEMES[themeIndex]` is undefined, where the claim has `themeIndex = 0`
and a defined theme. -/
theorem theme_index_not_defaulted :
    startGameThemeIndex (some "7") = some 7 ∧
    themeAt (startGameThemeIndex (some "7")) = none ∧
    startGameThemeIndex (some "abc") = none ∧
    themeAt (startGameThemeIndex (some "abc")) = none := by
  refine ⟨?_, ?_, ?_, ?_⟩ <;> decide

/-! ### The spawn loop on doubles -/

/-- Rounding to the nearest integer moves a number by at most one half. -/
theorem roundHalfEven_error (y : ℚ) : |(roundHalfEven y : ℚ) - y| ≤ 1 / 2 := by
  have h1 := Int.floor_le y
  have h2 := Int.lt_floor_add_one y
  unfold roundHalfEven
  rw [abs_le]
  split_ifs with a b c
  · constructor <;> linarith
  · push_cast; constructor <;> linarith
  · constructor <;> linarith
  · push_cast; constructor <;> linarith

/-- A number less than one half away from an integer rounds to it. -/
theorem roundHalfEven_eq (y : ℚ) (m : ℤ) (h : |y - m| < 1 / 2) : roundHalfEven y = m := by
  rw [abs_lt] at h
  unfold roundHalfEven
  by_cases hge : (m : ℚ) ≤ y
  · have hf : ⌊y⌋ = m := by
      rw [Int.floor_eq_iff]
      constructor <;> linarith
    rw [hf, if_pos (by linarith)]
  · have hf : ⌊y⌋ = m - 1 := by
      rw [Int.floor_eq_iff]
      push_cast
      constructor <;> linarith
    rw [hf]
    push_cast
    rw [if_neg (by linarith), if_pos (by linarith)]
    ring

/-- Rounding to a double moves a number below `2^k` by at most `2^(k-54)`. -/
theorem roundDouble_error (x : ℚ) (k : ℤ) (hk : -1021 ≤ k) (hx : |x| < 2 ^ k) :
    |roundDouble x - x| ≤ 2 ^ (k - 54) := by
  unfold roundDouble
  by_cases h0 : x = 0
  · rw [if_pos h0, h0]
    simp only [sub_zero, abs_zero]
    positivity
  · rw [if_neg h0]
    have hpos : 0 < |x| := abs_pos.mpr h0
    have hlog : Int.log 2 |x| < k := (Int.lt_zpow_iff_log_lt (by norm_num) hpos).mp (by exact_mod_cast hx)
    have he : max (Int.log 2 |x|) (-1022) ≤ k - 1 := max_le (by omega) (by omega)
    generalize max (Int.log 2 |x|) (-1022) = e at he
    have hq : (0 : ℚ) < 2 ^ (e - 52) := by positivity
    have herr := roundHalfEven_error (x / 2 ^ (e - 52))
    have hx' : x = x / 2 ^ (e - 52) * 2 ^ (e - 52) := by field_simp
    have : (roundHalfEven (x / 2 ^ (e - 52)) : ℚ) * 2 ^ (e - 52) - x =
        ((roundHalfEven (x / 2 ^ (e - 52)) : ℚ) - x / 2 ^ (e - 52)) * 2 ^ (e - 52) := by
      rw [sub_mul]
      rw [← hx']
    rw [this, abs_mul, abs_of_pos hq]
    have h54 : (2 : ℚ) ^ (e - 52) = 2 * 2 ^ (e - 53) := by
      rw [show e - 52 = (e - 53) + 1 by ring, zpow_add₀ (by norm_num : (2 : ℚ) ≠ 0)]
      ring
    have hmono : (2 : ℚ) ^ (e - 53) ≤ 2 ^ (k - 54) :=
      zpow_le_zpow_right₀ (by norm_num) (by omega)
    calc |(roundHalfEven (x / 2 ^ (e - 52)) : ℚ) - x / 2 ^ (e - 52)| * 2 ^ (e - 52)
        ≤ 1 / 2 * 2 ^ (e - 52) := by
          apply mul_le_mul_of_nonneg_right herr (le_of_lt hq)
      _ = 2 ^ (e - 53) := by rw [h54]; ring
      _ ≤ 2 ^ (k - 54) := hmono

/-- The double of a number in the binade of `2^e` that is less than half a
spacing away from `m * 2^(e-52)`. -/
theorem roundDouble_eq_of_near (x : ℚ) (e m : ℤ) (he1 : 2 ^ e ≤ |x|) (he2 : |x| < 2 ^ (e + 1))
    (he : -1022 ≤ e) (hm : |x / 2 ^ (e - 52) - m| < 1 / 2) :
    roundDouble x = m * 2 ^ (e - 52) := by
  have hpos : 0 < |x| := lt_of_lt_of_le (by positivity) he1
  have h0 : x ≠ 0 := abs_pos.mp hpos
  have hlog : Int.log 2 |x| = e := by
    have h1 : e ≤ Int.log 2 |x| :=
      (Int.zpow_le_iff_le_log (by norm_num) hpos).mp (by exact_mod_cast he1)
    have h2 : Int.log 2 |x| < e + 1 :=
      (Int.lt_zpow_iff_log_lt (by norm_num) hpos).mp (by exact_mod_cast he2)
    omega
  unfold roundDouble
  rw [if_neg h0, hlog, max_eq_left he, roundHalfEven_eq _ m hm]


/-- One loop iteration on doubles in closed form. -/
theorem spawnStepDouble_eq (env : Env) (s : State) :
    ∃ cs, spawnStepDouble env s =
      { s with
        spawnElapsed := roundDouble (s.spawnElapsed - s.spawnInterval),
        spawnInterval :=
          max (roundDouble MIN_INTERVAL) (roundDouble (s.spawnInterval * roundDouble 0.992)),
        randIdx := s.randIdx + 3 + cs.length,
        obstacles := s.obstacles ++
          [⟨(env.canvasWidth : ℚ) + 16,
            (env.canvasHeight : ℚ) - (env.rand s.randIdx * 50 + 40) - 20,
            env.rand (s.randIdx + 1) * 24 + 30, env.rand s.randIdx * 50 + 40,
            (currentTheme s.themeIndex).obstacle⟩],
        coins := s.coins ++ cs } ∧ cs.length ≤ 1 := by
  unfold spawnStepDouble spawnObstacle spawnCoin
  dsimp only
  split_ifs
  · exact ⟨[_], rfl, le_refl _⟩
  · refine ⟨[], ?_, Nat.zero_le _⟩
    obtain ⟨_⟩ := s
    simp

/-- One loop iteration on doubles appends exactly one obstacle and at most one coin. -/
theorem spawnStepDouble_appends (env : Env) (s : State) :
    ∃ (o : Obstacle) (cs : List Coin),
      (spawnStepDouble env s).obstacles = s.obstacles ++ [o] ∧
      (spawnStepDouble env s).coins = s.coins ++ cs ∧ cs.length ≤ 1 := by
  obtain ⟨cs, h, hcs⟩ := spawnStepDouble_eq env s
  rw [h]
  exact ⟨_, cs, rfl, rfl, hcs⟩

/-- After `n` loop iterations on doubles, `n` obstacles and at most `n` coins
have been appended. -/
theorem spawnStepDouble_iterate_appends (env : Env) (n : ℕ) :
    ∀ s : State, ∃ (os : List Obstacle) (cs : List Coin),
      ((spawnStepDouble env)^[n] s).obstacles = s.obstacles ++ os ∧ os.length = n ∧
      ((spawnStepDouble env)^[n] s).coins = s.coins ++ cs ∧ cs.length ≤ n := by
  induction n with
  | zero =>
    intro s
    exact ⟨[], [], by simp, rfl, by simp, le_refl _⟩
  | succ n ih =>
    intro s
    obtain ⟨o, cs1, ho, hc, hlen⟩ := spawnStepDouble_appends env s
    obtain ⟨os, cs, hos, hosl, hcs, hcsl⟩ := ih (spawnStepDouble env s)
    rw [Function.iterate_succ_apply, hos, hcs, ho, hc]
    refine ⟨o :: os, cs1 ++ cs, by simp, by simp [hosl], by simp, ?_⟩
    rw [List.length_append]
    omega

/-- When the loop condition holds before each of `n` iterations and fails after
them, every run with at least `n` units of fuel returns the state after them. -/
theorem spawnLoopDouble_of_iterate (env : Env) (n : ℕ) :
    ∀ s : State,
      (∀ k < n, ((spawnStepDouble env)^[k] s).spawnElapsed ≥
        ((spawnStepDouble env)^[k] s).spawnInterval) →
      ((spawnStepDouble env)^[n] s).spawnElapsed < ((spawnStepDouble env)^[n] s).spawnInterval →
      ∀ fuel, n ≤ fuel → spawnLoopDouble env fuel s = some ((spawnStepDouble env)^[n] s) := by
  induction n with
  | zero =>
    intro s _ hexit fuel _
    have hn : ¬ s.spawnElapsed ≥ s.spawnInterval := not_le.mpr hexit
    cases fuel with
    | zero => rw [spawnLoopDouble, if_neg hn]; rfl
    | succ f => rw [spawnLoopDouble, if_neg hn]; rfl
  | succ n ih =>
    intro s hk hexit fuel hfuel
    cases fuel with
    | zero => omega
    | succ f =>
      have h0 : s.spawnElapsed ≥ s.spawnInterval := hk 0 (Nat.succ_pos n)
      rw [spawnLoopDouble, if_pos h0, Function.iterate_succ_apply]
      apply ih (spawnStepDouble env s)
      · intro k hkn
        have := hk (k + 1) (by omega)
        rw [Function.iterate_succ_apply] at this
        exact this
      · rw [Function.iterate_succ_apply] at hexit
        exact hexit
      · omega

/-- When the loop condition holds after every number of iterations, no amount
of fuel lets the loop return. -/
theorem spawnLoopDouble_none (env : Env) (fuel : ℕ) :
    ∀ s : State,
      (∀ n, ((spawnStepDouble env)^[n] s).spawnElapsed ≥
        ((spawnStepDouble env)^[n] s).spawnInterval) →
      spawnLoopDouble env fuel s = none := by
  induction fuel with
  | zero =>
    intro s h
    have h0 : s.spawnElapsed ≥ s.spawnInterval := h 0
    rw [spawnLoopDouble, if_pos h0]
  | succ f ih =>
    intro s h
    have h0 : s.spawnElapsed ≥ s.spawnInterval := h 0
    rw [spawnLoopDouble, if_pos h0]
    apply ih
    intro n
    have := h (n + 1)
    rw [Function.iterate_succ_apply] at this
    exact this


/-- The double nearest to `0.55` lies between `1/2` and `1`. -/
theorem roundDouble_min_bounds :
    1 / 2 ≤ roundDouble MIN_INTERVAL ∧ roundDouble MIN_INTERVAL ≤ 1 := by
  have h := roundDouble_error MIN_INTERVAL 0 (by norm_num) (by norm_num [MIN_INTERVAL, abs_of_pos])
  rw [abs_le] at h
  norm_num [MIN_INTERVAL] at h ⊢
  constructor <;> linarith

/-- The double nearest to `0.992` lies between `0` and `0.993`. -/
theorem roundDouble_factor_bounds :
    0 ≤ roundDouble 0.992 ∧ roundDouble 0.992 ≤ 0.993 := by
  have h := roundDouble_error 0.992 0 (by norm_num) (by norm_num [abs_of_pos])
  rw [abs_le] at h
  norm_num at h ⊢
  constructor <;> linarith

/-- The timer after one loop iteration on doubles. -/
theorem spawnStepDouble_spawnElapsed (env : Env) (s : State) :
    (spawnStepDouble env s).spawnElapsed = roundDouble (s.spawnElapsed - s.spawnInterval) := by
  obtain ⟨cs, h, _⟩ := spawnStepDouble_eq env s
  rw [h]

/-- The interval after one loop iteration on doubles. -/
theorem spawnStepDouble_spawnInterval (env : Env) (s : State) :
    (spawnStepDouble env s).spawnInterval =
      max (roundDouble MIN_INTERVAL) (roundDouble (s.spawnInterval * roundDouble 0.992)) := by
  obtain ⟨cs, h, _⟩ := spawnStepDouble_eq env s
  rw [h]

/-- Once the interval is a result of the loop and the timer is below `2^52`,
every iteration takes at least `1/4` off the timer, so the loop ends. -/
theorem spawnStepDouble_terminates_core (env : Env) (N : ℕ) :
    ∀ s : State, roundDouble MIN_INTERVAL ≤ s.spawnInterval →
      s.spawnElapsed ≤ (N : ℚ) / 4 → s.spawnElapsed < 2 ^ 52 →
      ∃ n : ℕ,
        (∀ k < n, ((spawnStepDouble env)^[k] s).spawnElapsed ≥
          ((spawnStepDouble env)^[k] s).spawnInterval) ∧
        ((spawnStepDouble env)^[n] s).spawnElapsed <
          ((spawnStepDouble env)^[n] s).spawnInterval := by
  have hm := roundDouble_min_bounds
  induction N with
  | zero =>
    intro s hi he _
    refine ⟨0, fun k hk => absurd hk (Nat.not_lt_zero k), ?_⟩
    show s.spawnElapsed < s.spawnInterval
    norm_num at he
    linarith
  | succ N ih =>
    intro s hi he hlt
    by_cases hc : s.spawnElapsed ≥ s.spawnInterval
    · have hx : |s.spawnElapsed - s.spawnInterval| < 2 ^ (52 : ℤ) := by
        rw [abs_of_nonneg (sub_nonneg.mpr hc)]
        norm_num at hlt ⊢
        linarith
      have herr := roundDouble_error _ 52 (by norm_num) hx
      rw [abs_le] at herr
      norm_num at herr
      have he1 : (spawnStepDouble env s).spawnElapsed ≤ (N : ℚ) / 4 := by
        rw [spawnStepDouble_spawnElapsed]
        push_cast at he
        linarith
      have hlt1 : (spawnStepDouble env s).spawnElapsed < 2 ^ 52 := by
        rw [spawnStepDouble_spawnElapsed]
        linarith
      have hi1 : roundDouble MIN_INTERVAL ≤ (spawnStepDouble env s).spawnInterval := by
        rw [spawnStepDouble_spawnInterval]
        exact le_max_left _ _
      obtain ⟨n, hk, hexit⟩ := ih (spawnStepDouble env s) hi1 he1 hlt1
      refine ⟨n + 1, ?_, ?_⟩
      · intro k hkn
        cases k with
        | zero => exact hc
        | succ k =>
          rw [Function.iterate_succ_apply]
          exact hk k (by omega)
      · rw [Function.iterate_succ_apply]
        exact hexit
    · exact ⟨0, fun k hk => absurd hk (Nat.not_lt_zero k), not_le.mp hc⟩

/-- From a timer and an interval of magnitude at most `2^51`, the loop on
doubles ends after finitely many iterations. -/
theorem spawnStepDouble_terminates (env : Env) (s : State)
    (he : |s.spawnElapsed| ≤ 2 ^ 51) (hi : |s.spawnInterval| ≤ 2 ^ 50) :
    ∃ n : ℕ,
      (∀ k < n, ((spawnStepDouble env)^[k] s).spawnElapsed ≥
        ((spawnStepDouble env)^[k] s).spawnInterval) ∧
      ((spawnStepDouble env)^[n] s).spawnElapsed <
        ((spawnStepDouble env)^[n] s).spawnInterval := by
  by_cases hc : s.spawnElapsed ≥ s.spawnInterval
  · rw [abs_le] at he hi
    have hx : |s.spawnElapsed - s.spawnInterval| < 2 ^ (52 : ℤ) := by
      rw [abs_lt]
      norm_num at he hi ⊢
      constructor <;> linarith
    have herr := roundDouble_error _ 52 (by norm_num) hx
    rw [abs_le] at herr
    norm_num at herr
    have hlt1 : (spawnStepDouble env s).spawnElapsed < 2 ^ 52 := by
      rw [spawnStepDouble_spawnElapsed]
      norm_num at he hi ⊢
      linarith
    have hi1 : roundDouble MIN_INTERVAL ≤ (spawnStepDouble env s).spawnInterval := by
      rw [spawnStepDouble_spawnInterval]
      exact le_max_left _ _
    have he1 : (spawnStepDouble env s).spawnElapsed ≤
        ((⌈4 * (spawnStepDouble env s).spawnElapsed⌉₊ : ℕ) : ℚ) / 4 := by
      have := Nat.le_ceil (4 * (spawnStepDouble env s).spawnElapsed)
      linarith
    obtain ⟨n, hk, hexit⟩ := spawnStepDouble_terminates_core env _ (spawnStepDouble env s)
      hi1 he1 hlt1
    refine ⟨n + 1, ?_, ?_⟩
    · intro k hkn
      cases k with
      | zero => exact hc
      | succ k =>
        rw [Function.iterate_succ_apply]
        exact hk k (by omega)
    · rw [Function.iterate_succ_apply]
      exact hexit
  · exact ⟨0, fun k hk => absurd hk (Nat.not_lt_zero k), not_le.mp hc⟩


/-- C17 (amended): for every `dt` and every starting timer and interval (zero
and negative intervals included) with `|spawnElapsed + dt| ≤ 2^50` and
`|spawnInterval| ≤ 2^50`, the `while` loop of `spawnManager`, computed on
doubles, runs a finite number `n` of iterations, the loop condition holding
before each of them: every run with at least `n` units of fuel returns; on
return `spawnElapsed < spawnInterval`; `n` obstacles and at most `n` coins are
appended, each iteration appending exactly one obstacle and at most one coin. -/
theorem spawnManagerDouble_terminates (env : Env) (dt : ℚ) (s : State)
    (he : |s.spawnElapsed + dt| ≤ 2 ^ 50) (hi : |s.spawnInterval| ≤ 2 ^ 50) :
    ∃ (n : ℕ) (s' : State),
      (∀ fuel, n ≤ fuel → spawnManagerDouble env fuel dt s = some s') ∧
      s' = (spawnStepDouble env)^[n]
        { s with spawnElapsed := roundDouble (s.spawnElapsed + dt) } ∧
      (∀ k < n,
        ((spawnStepDouble env)^[k]
            { s with spawnElapsed := roundDouble (s.spawnElapsed + dt) }).spawnElapsed ≥
          ((spawnStepDouble env)^[k]
            { s with spawnElapsed := roundDouble (s.spawnElapsed + dt) }).spawnInterval) ∧
      s'.spawnElapsed < s'.spawnInterval ∧
      (∃ (os : List Obstacle) (cs : List Coin),
        s'.obstacles = s.obstacles ++ os ∧ os.length = n ∧
        s'.coins = s.coins ++ cs ∧ cs.length ≤ n) ∧
      (∀ t : State, ∃ (o : Obstacle) (cs : List Coin),
        (spawnStepDouble env t).obstacles = t.obstacles ++ [o] ∧
        (spawnStepDouble env t).coins = t.coins ++ cs ∧ cs.length ≤ 1) := by
  have hx : |s.spawnElapsed + dt| < 2 ^ (51 : ℤ) := by
    norm_num at he ⊢
    linarith
  have herr := roundDouble_error _ 51 (by norm_num) hx
  have he0 : |roundDouble (s.spawnElapsed + dt)| ≤ 2 ^ 51 := by
    rw [abs_le] at herr he ⊢
    norm_num at herr he ⊢
    constructor <;> linarith
  obtain ⟨n, hk, hexit⟩ := spawnStepDouble_terminates env
    { s with spawnElapsed := roundDouble (s.spawnElapsed + dt) } he0 hi
  refine ⟨n, _, ?_, rfl, hk, hexit, ?_, spawnStepDouble_appends env⟩
  · intro fuel hfuel
    unfold spawnManagerDouble
    exact spawnLoopDouble_of_iterate env n _ hk hexit fuel hfuel
  · exact spawnStepDouble_iterate_appends env n
      { s with spawnElapsed := roundDouble (s.spawnElapsed + dt) }

/-- Near `2^60` the doubles are 128 apart below and 256 apart above: a
subtraction of less than 64 is absorbed. -/
theorem roundDouble_absorbs_sub (i : ℚ) (h0 : 0 < i) (h1 : i < 64) :
    roundDouble (2 ^ 60 - i) = 2 ^ 60 := by
  have hpos : (0 : ℚ) < 2 ^ 60 - i := by norm_num; linarith
  have h := roundDouble_eq_of_near (2 ^ 60 - i) 59 (2 ^ 53)
    (by rw [abs_of_pos hpos]; norm_num; linarith)
    (by rw [abs_of_pos hpos]; norm_num; linarith)
    (by norm_num)
    (by
      rw [abs_lt]
      norm_num
      constructor <;> linarith)
  rw [h]
  norm_num

/-- An addition of less than 128 to `2^60` is absorbed. -/
theorem roundDouble_absorbs_add (d : ℚ) (h0 : 0 ≤ d) (h1 : d < 128) :
    roundDouble (2 ^ 60 + d) = 2 ^ 60 := by
  have hpos : (0 : ℚ) < 2 ^ 60 + d := by positivity
  have h := roundDouble_eq_of_near (2 ^ 60 + d) 60 (2 ^ 52)
    (by rw [abs_of_pos hpos]; norm_num; linarith)
    (by rw [abs_of_pos hpos]; norm_num; linarith)
    (by norm_num)
    (by
      rw [abs_lt]
      norm_num
      constructor <;> linarith)
  rw [h]
  norm_num

/-- With the timer at `2^60` and an interval in `(0, 1]`, every iteration on
doubles leaves the timer at `2^60` and the interval in `(0, 1]`. -/
theorem stalled_iterate (env : Env) (n : ℕ) :
    ∀ s : State, s.spawnElapsed = 2 ^ 60 → 0 < s.spawnInterval → s.spawnInterval ≤ 1 →
      ((spawnStepDouble env)^[n] s).spawnElapsed = 2 ^ 60 ∧
      0 < ((spawnStepDouble env)^[n] s).spawnInterval ∧
      ((spawnStepDouble env)^[n] s).spawnInterval ≤ 1 := by
  induction n with
  | zero => intro s he h0 h1; exact ⟨he, h0, h1⟩
  | succ n ih =>
    intro s he h0 h1
    rw [Function.iterate_succ_apply]
    have hm := roundDouble_min_bounds
    have hf := roundDouble_factor_bounds
    apply ih
    · rw [spawnStepDouble_spawnElapsed, he]
      exact roundDouble_absorbs_sub _ h0 (by linarith)
    · rw [spawnStepDouble_spawnInterval]
      exact lt_of_lt_of_le (by linarith) (le_max_left _ _)
    · rw [spawnStepDouble_spawnInterval]
      apply max_le hm.2
      have hprod0 : 0 ≤ s.spawnInterval * roundDouble 0.992 :=
        mul_nonneg (le_of_lt h0) hf.1
      have hprod1 : s.spawnInterval * roundDouble 0.992 ≤ 0.993 := by
        calc s.spawnInterval * roundDouble 0.992 ≤ 1 * roundDouble 0.992 :=
              mul_le_mul_of_nonneg_right h1 hf.1
          _ ≤ 0.993 := by rw [one_mul]; exact hf.2
      have hx : |s.spawnInterval * roundDouble 0.992| < 2 ^ (0 : ℤ) := by
        rw [abs_of_nonneg hprod0]
        norm_num at hprod1 ⊢
        linarith
      have herr := roundDouble_error _ 0 (by norm_num) hx
      rw [abs_le] at herr
      norm_num at herr hprod1
      linarith

/-- Counterexample for C17: with the spawn timer at `2^60` the subtraction
`spawnElapsed -= spawnInterval` is absorbed by rounding in every iteration, so
`spawnManager(1/32)` never leaves its loop, whatever the number of iterations
allowed. -/
theorem spawnManagerDouble_diverges :
    ¬ ∃ (fuel : ℕ) (s' : State),
      spawnManagerDouble sampleEnv fuel (1 / 32) sampleStalledState = some s' := by
  rintro ⟨fuel, s', h⟩
  unfold spawnManagerDouble at h
  have he0 : roundDouble (sampleStalledState.spawnElapsed + 1 / 32) = 2 ^ 60 :=
    roundDouble_absorbs_add (1 / 32) (by norm_num) (by norm_num)
  rw [he0] at h
  have hnone := spawnLoopDouble_none sampleEnv fuel
    { sampleStalledState with spawnElapsed := 2 ^ 60 }
    (by
      intro n
      obtain ⟨h1, _, h3⟩ := stalled_iterate sampleEnv n
        { sampleStalledState with spawnElapsed := 2 ^ 60 } rfl
        (by norm_num [sampleStalledState]) (by norm_num [sampleStalledState])
      rw [ge_iff_le, h1]
      exact le_trans h3 (by norm_num))
  rw [hnone] at h
  exact Option.noConfusion h

/-- Witness for C17: with the timer at 1.25 and the interval at 1.1875 the call
`spawnManager(1/32)` on doubles runs its loop body exactly once and returns
with one more obstacle. -/
theorem spawnManagerDouble_terminates_witness :
    |sampleDueState.spawnElapsed + 1 / 32| ≤ 2 ^ 50 ∧
    |sampleDueState.spawnInterval| ≤ 2 ^ 50 ∧
    sampleDueState.spawnElapsed + 1 / 32 ≥ sampleDueState.spawnInterval ∧
    ∃ s' : State,
      (∀ fuel, 1 ≤ fuel →
        spawnManagerDouble sampleEnv fuel (1 / 32) sampleDueState = some s') ∧
      s'.spawnElapsed < s'.spawnInterval ∧
      s'.obstacles.length = sampleDueState.obstacles.length + 1 := by
  have he : |sampleDueState.spawnElapsed + 1 / 32| ≤ 2 ^ 50 := by
    norm_num [sampleDueState, abs_of_pos]
  have hi : |sampleDueState.spawnInterval| ≤ 2 ^ 50 := by
    norm_num [sampleDueState, abs_of_pos]
  refine ⟨he, hi, by norm_num [sampleDueState], ?_⟩
  obtain ⟨n, s', hfuel, hs', hk, hexit, ⟨os, cs, hos, hlen, _, _⟩, _⟩ :=
    spawnManagerDouble_terminates sampleEnv (1 / 32) sampleDueState he hi
  have hm := roundDouble_min_bounds
  have hx0 : |sampleDueState.spawnElapsed + 1 / 32| < 2 ^ (1 : ℤ) := by
    norm_num [sampleDueState, abs_of_pos]
  have herr0 := roundDouble_error _ 1 (by norm_num) hx0
  rw [abs_le] at herr0
  norm_num [sampleDueState] at herr0
  have hn : n = 1 := by
    rcases Nat.lt_trichotomy n 1 with hlt | heq | hgt
    · exfalso
      have h0 : n = 0 := by omega
      subst h0
      rw [hs'] at hexit
      have : roundDouble (sampleDueState.spawnElapsed + 1 / 32) < sampleDueState.spawnInterval :=
        hexit
      norm_num [sampleDueState] at this
      linarith
    · exact heq
    · exfalso
      have h1 := hk 1 hgt
      rw [Function.iterate_one, spawnStepDouble_spawnElapsed,
        spawnStepDouble_spawnInterval] at h1
      have hx1 : |roundDouble (sampleDueState.spawnElapsed + 1 / 32) -
          sampleDueState.spawnInterval| < 2 ^ (0 : ℤ) := by
        rw [abs_lt]
        norm_num [sampleDueState]
        constructor <;> linarith
      have herr1 := roundDouble_error _ 0 (by norm_num) hx1
      rw [abs_le] at herr1
      have hge : roundDouble MIN_INTERVAL ≤
          max (roundDouble MIN_INTERVAL)
            (roundDouble (sampleDueState.spawnInterval * roundDouble 0.992)) := le_max_left _ _
      dsimp only at h1
      norm_num [sampleDueState] at herr1 h1 hge
      linarith
  subst hn
  refine ⟨s', hfuel, hexit, ?_⟩
  rw [hos, List.length_append, hlen]

end Runner
